import Mathlib

/-!
# loolwsd: connection handler, queue consumer and process supervisor

A shallow embedding of `loolwsd/LOOLWSD.cpp`:

* `RequestHandler::handleRequest` (WebSocket branch): classification of the
  connection, the read loop with the `nextmessage:` extension, and the
  teardown of the queue consumer;
* `QueueHandler::run`: the consumer of the per-session message queue;
* the supervise loop of `LOOLWSD::main`: the reap step over the tracked
  children and the pacing counter.

Socket, thread and queue operations are recorded as a list of `Effect`s in
program order; what the environment answers (poll results, received frames,
the value returned by the session's input handler, the termination flag, the
room left on the thread stack for the large receive buffer) is supplied as
data, so every definition is a total, computable function.
Strings stand for byte strings: one `Char` is one byte.
-/

namespace LOOLWSD

/-! ## Data model -/

/-- The two session kinds, `LOOLSession::Kind`. -/
inductive Kind where
  | ToClient
  | ToPrisoner
  deriving DecidableEq, Repr

/-- Opcode mask of a frame's flags, `Poco::Net::WebSocket::FRAME_OP_BITMASK`. -/
def FRAME_OP_BITMASK : Nat := 0x0f

/-- Opcode of a CLOSE frame, `Poco::Net::WebSocket::FRAME_OP_CLOSE`. -/
def FRAME_OP_CLOSE : Nat := 0x08

/-- Opcode of a PONG frame, `Poco::Net::WebSocket::FRAME_OP_PONG`. -/
def FRAME_OP_PONG : Nat := 0x0a

/-- The size of the primary receive buffer, `sizeof(buffer)` for `char buffer[200000]`. -/
def BUFFER_SIZE : Int := 200000

/-- The reserved URI of the worker callback endpoint, `LOOLWSD::CHILD_URI`. -/
def CHILD_URI : String := "/loolws/child/"

/-- Constants of `Common.hpp`, which is not part of the sources at hand; they are
taken as parameters. -/
structure Common where
  MASTER_PORT_NUMBER : Nat
  INTERVAL_PROBES : Nat
  MAINTENANCE_INTERVAL : Nat

/-- The helpers of `LOOLProtocol.hpp` and the Poco tokenizer used by the read loop,
taken as parameters: `getFirstLine(buffer, n)`, `StringTokenizer(line, " ",
TOK_IGNORE_EMPTY | TOK_TRIM)` as the list of its tokens, and
`getTokenInteger(token, name, value)`, which yields the parsed value when it
returns true. -/
structure LOOLProtocol where
  getFirstLine : String → Int → String
  tokenize : String → List String
  getTokenInteger : String → String → Option Int

/-- The exceptions the handler catches. A `WebSocketException` carries its error
code (`exc.code()`). -/
inductive Exc where
  | WebSocketException (code : Nat)
  | IOException
  deriving DecidableEq, Repr

/-- Poco error code `WebSocket::WS_ERR_NO_HANDSHAKE`. -/
def WS_ERR_NO_HANDSHAKE : Nat := 1
/-- Poco error code `WebSocket::WS_ERR_HANDSHAKE_NO_VERSION`. -/
def WS_ERR_HANDSHAKE_NO_VERSION : Nat := 2
/-- Poco error code `WebSocket::WS_ERR_HANDSHAKE_UNSUPPORTED_VERSION`. -/
def WS_ERR_HANDSHAKE_UNSUPPORTED_VERSION : Nat := 3
/-- Poco error code `WebSocket::WS_ERR_HANDSHAKE_NO_KEY`. -/
def WS_ERR_HANDSHAKE_NO_KEY : Nat := 4

/-- What `ws->poll(waitTime, Socket::SELECT_READ)` does: it times out (returns
false), reports readable data (returns true), or throws. -/
inductive PollResult where
  | timeout
  | readable
  | raise (e : Exc)
  deriving DecidableEq, Repr

/-- What `ws->receiveFrame(buf, size, flags)` does: it returns `n`, sets `flags`
and fills the buffer with `data`, or throws. -/
inductive RecvResult where
  | frame (n : Int) (flags : Nat) (data : String)
  | raise (e : Exc)
  deriving DecidableEq, Repr

/-- The answers of the environment during one iteration of the read loop: the
result of the poll, of the first `receiveFrame` (if it is issued), of the second
`receiveFrame` (if it is issued), the value `session->handleInput` returns (if it
is called), the value of `TerminationFlag` read by the loop condition, and the
number of bytes that the stack of the handler thread can still hold at the
declaration of the array `char largeBuffer[size]` (if it is reached). -/
structure Step where
  poll : PollResult
  recv : RecvResult
  recv2 : RecvResult
  handled : Bool
  terminationFlag : Bool
  stack : Int
  deriving DecidableEq, Repr

/-- The observable operations of the handler, in program order. `allocate size` is
the declaration of the stack array `char largeBuffer[size]`; `segfault` is the death
of the process when the stack cannot hold that array. -/
inductive Effect where
  | plainHttp
  | genSessionId
  | newSession (id : String) (kind : Kind)
  | threadStart
  | poll
  | receiveFrame (size : Int)
  | allocate (size : Int)
  | segfault
  | queuePut (value : String)
  | handleInput (data : String) (n : Int)
  | queueClear
  | threadJoin
  | sendBadRequest
  deriving DecidableEq, Repr

/-- The values the read loop puts on the queue, in order. -/
def queued : List Effect → List String
  | [] => []
  | .queuePut s :: es => s :: queued es
  | _ :: es => queued es

/-- The calls of `session->handleInput` made on the read-loop thread, in order. -/
def dispatched : List Effect → List (String × Int)
  | [] => []
  | .handleInput d n :: es => (d, n) :: dispatched es
  | _ :: es => dispatched es

/-- The locals `n`, `flags` and `pollTimeout` of the read loop. -/
structure LoopVars where
  n : Int
  flags : Nat
  pollTimeout : Bool
  deriving DecidableEq, Repr

/-- How one execution of the loop body ends: it reaches the loop condition, it
leaves the loop by `break`, an exception leaves the `try` block, or the process
dies because the stack cannot hold `largeBuffer`. -/
inductive BodyExit where
  | next (v : LoopVars)
  | brk
  | raised (e : Exc)
  | crashed
  deriving DecidableEq, Repr

/-- The test `tokens.count() == 2 && tokens[0] == "nextmessage:" &&
getTokenInteger(tokens[1], "size", size) && size > 0`; it yields `size` when the
test holds. -/
def nextMessageSize (P : LOOLProtocol) (tokens : List String) : Option Int :=
  match tokens with
  | [t0, t1] =>
    if t0 = "nextmessage:" then
      match P.getTokenInteger t1 "size" with
      | some size => if size > 0 then some size else none
      | none => none
    else none
  | _ => none

/-- One execution of the body of the `do ... while` loop. The array
`char largeBuffer[size]` lives on the stack of the handler thread: when the stack
cannot hold `size` bytes the process dies before the second `receiveFrame`. -/
def loopBody (P : LOOLProtocol) (kind : Kind) (v : LoopVars) (s : Step) :
    List Effect × BodyExit :=
  match s.poll with
  | .raise e => ([.poll], .raised e)
  | .timeout => ([.poll], .next ⟨v.n, v.flags, false⟩)
  | .readable =>
    match s.recv with
    | .raise e => ([.poll, .receiveFrame BUFFER_SIZE], .raised e)
    | .frame n flags buffer =>
      if flags &&& FRAME_OP_BITMASK = FRAME_OP_PONG then
        ([.poll, .receiveFrame BUFFER_SIZE], .next ⟨1, flags, true⟩)
      else if n > 0 ∧ flags &&& FRAME_OP_BITMASK ≠ FRAME_OP_CLOSE then
        let firstLine := P.getFirstLine buffer n
        if firstLine = "eof" then
          ([.poll, .receiveFrame BUFFER_SIZE], .brk)
        else if kind = Kind.ToClient ∧ (firstLine.length : Int) = n then
          ([.poll, .receiveFrame BUFFER_SIZE, .queuePut firstLine], .next ⟨n, flags, true⟩)
        else
          match nextMessageSize P (P.tokenize firstLine) with
          | some size =>
            if size ≤ s.stack then
              match s.recv2 with
              | .raise e =>
                ([.poll, .receiveFrame BUFFER_SIZE, .allocate size, .receiveFrame size],
                 .raised e)
              | .frame n2 flags2 largeBuffer =>
                if n2 > 0 ∧ flags2 &&& FRAME_OP_BITMASK ≠ FRAME_OP_CLOSE then
                  ([.poll, .receiveFrame BUFFER_SIZE, .allocate size, .receiveFrame size,
                    .handleInput largeBuffer n2],
                   .next ⟨if s.handled then n2 else 0, flags2, true⟩)
                else
                  ([.poll, .receiveFrame BUFFER_SIZE, .allocate size, .receiveFrame size],
                   .next ⟨n2, flags2, true⟩)
            else
              ([.poll, .receiveFrame BUFFER_SIZE, .allocate size, .segfault], .crashed)
          | none =>
            ([.poll, .receiveFrame BUFFER_SIZE, .handleInput buffer n],
             .next ⟨if s.handled then n else 0, flags, true⟩)
      else
        ([.poll, .receiveFrame BUFFER_SIZE], .next ⟨n, flags, true⟩)

/-- The loop condition `!TerminationFlag && (!pollTimeout || (n > 0 && (flags &
FRAME_OP_BITMASK) != FRAME_OP_CLOSE))`, with the short-circuit evaluation of the
source. -/
def loopCond (terminationFlag : Bool) (v : LoopVars) : Bool :=
  if terminationFlag then false
  else if v.pollTimeout = false then true
  else if v.n > 0 then decide (v.flags &&& FRAME_OP_BITMASK ≠ FRAME_OP_CLOSE)
  else false

/-- How the read loop ends: control leaves the loop and reaches the statement
after it, an exception leaves the `try` block, the loop is still running when
the answers of the environment are used up, or the process died in the loop. -/
inductive LoopExit where
  | left
  | raised (e : Exc)
  | running
  | crashed
  deriving DecidableEq, Repr

/-- The `do ... while` loop, run over the answers of the environment, one `Step`
for each iteration. -/
def readLoop (P : LOOLProtocol) (kind : Kind) : LoopVars → List Step → List Effect × LoopExit
  | _, [] => ([], .running)
  | v, s :: rest =>
    match loopBody P kind v s with
    | (es, .raised e) => (es, .raised e)
    | (es, .brk) => (es, .left)
    | (es, .crashed) => (es, .crashed)
    | (es, .next w) =>
      if loopCond s.terminationFlag w then
        (es ++ (readLoop P kind w rest).1, (readLoop P kind w rest).2)
      else (es, .left)

/-! ## `RequestHandler::handleRequest` -/

/-- What the handler reads of a request: whether it carries `Upgrade: websocket`,
whether (as a plain HTTP request) it is a `convert-to` request with a file and a
format, its URI, and the port of the server address it arrived on. -/
structure Request where
  upgrade : Bool
  convertTo : Bool
  uri : String
  port : Nat
  deriving DecidableEq, Repr

/-- The answers of the environment to one run of the handler: the exception the
WebSocket constructor throws, if any; the indeterminate initial values of the
locals `n` and `flags`; and the answers for the iterations of the read loop. -/
structure Env where
  handshake : Option Exc
  n0 : Int
  flags0 : Nat
  steps : List Step
  deriving DecidableEq, Repr

/-- The result of one run of the handler: the effects in program order, the
identity and kind the session was constructed with (if one was constructed), the
value of `LOOLWSD::NextSessionId` afterwards, and whether the handler returned (it
has not when the loop is still running or when the process died in the loop). -/
structure Outcome where
  trace : List Effect
  session : Option (String × Kind)
  nextSessionId : Nat
  returned : Bool
  deriving DecidableEq, Repr

/-- The `catch` blocks of the handler: a `WebSocketException` with one of the four
handshake codes answers with a bad-request status; every other caught exception
is only logged. -/
def catchEffects : Exc → List Effect
  | .WebSocketException code =>
    if code = WS_ERR_HANDSHAKE_UNSUPPORTED_VERSION ∨ code = WS_ERR_NO_HANDSHAKE ∨
        code = WS_ERR_HANDSHAKE_NO_VERSION ∨ code = WS_ERR_HANDSHAKE_NO_KEY then
      [.sendBadRequest]
    else []
  | .IOException => []

/-- The test `request.getURI() == LOOLWSD::CHILD_URI &&
request.serverAddress().port() == MASTER_PORT_NUMBER` that selects the kind. -/
def sessionKind (C : Common) (request : Request) : Kind :=
  if request.uri = CHILD_URI ∧ request.port = C.MASTER_PORT_NUMBER then Kind.ToPrisoner
  else Kind.ToClient

/-- The handler. `GenSessionId` is `LOOLWSD::GenSessionId` (declared in
`LOOLWSD.hpp`, not among the sources), as a function from the value of
`NextSessionId` to the identity it returns and the new value of the counter. A
plain HTTP request is abstracted to the single effect `plainHttp`, preceded, for a
`convert-to` request with a file and a format, by the construction of its
ToClient session. -/
def handleRequest (C : Common) (P : LOOLProtocol) (GenSessionId : Nat → String × Nat)
    (request : Request) (nextSessionId : Nat) (env : Env) : Outcome :=
  if request.upgrade = false then
    if request.convertTo then
      ⟨[.genSessionId, .newSession (GenSessionId nextSessionId).1 Kind.ToClient, .plainHttp],
        some ((GenSessionId nextSessionId).1, Kind.ToClient), (GenSessionId nextSessionId).2, true⟩
    else ⟨[.plainHttp], none, nextSessionId, true⟩
  else
    match env.handshake with
    | some e => ⟨catchEffects e, none, nextSessionId, true⟩
    | none =>
      let kind := sessionKind C request
      let id := if kind = Kind.ToClient then (GenSessionId nextSessionId).1 else ""
      let counter := if kind = Kind.ToClient then (GenSessionId nextSessionId).2 else nextSessionId
      let pre := (if kind = Kind.ToClient then [Effect.genSessionId] else []) ++
        [Effect.newSession id kind] ++
        (if kind = Kind.ToClient then [Effect.threadStart] else [])
      match readLoop P kind ⟨env.n0, env.flags0, true⟩ env.steps with
      | (es, .left) =>
        ⟨pre ++ es ++ [.queueClear, .queuePut "eof", .threadJoin], some (id, kind), counter, true⟩
      | (es, .raised e) => ⟨pre ++ es ++ catchEffects e, some (id, kind), counter, true⟩
      | (es, .running) => ⟨pre ++ es, some (id, kind), counter, false⟩
      | (es, .crashed) => ⟨pre ++ es, some (id, kind), counter, false⟩

/-! ## The message queue and its consumer, `QueueHandler::run` -/

/-- Modelled from the spec: the class `MessageQueue` (`MessageQueue.hpp`) is not
among the sources. The spec describes an ordered FIFO of text payloads with a
blocking dequeue and a clear operation that discards all pending items. -/
structure MessageQueue where
  items : List String
  deriving DecidableEq, Repr

/-- Modelled from the spec: a new queue of `MessageQueue.hpp` is empty. -/
def MessageQueue.empty : MessageQueue := ⟨[]⟩

/-- Modelled from the spec: `put` of `MessageQueue.hpp` appends at the back (FIFO). -/
def MessageQueue.put (q : MessageQueue) (value : String) : MessageQueue :=
  ⟨q.items ++ [value]⟩

/-- Modelled from the spec: `clear` of `MessageQueue.hpp` discards all pending items. -/
def MessageQueue.clear (_q : MessageQueue) : MessageQueue := ⟨[]⟩

/-- How a run of the consumer ends: the thread body finished, it is blocked in
`get` on an empty queue, or an exception made it raise `SIGABRT`. -/
inductive RunExit where
  | finished
  | blocked
  | aborted
  deriving DecidableEq, Repr

/-- The result of a run of the consumer: the calls `handleInput(input.c_str(),
input.size())` it made, in order; how it ended; and the items left in the queue. -/
structure RunResult where
  handled : List (String × Int)
  exit : RunExit
  rest : List String
  deriving DecidableEq, Repr

/-- The loop of `QueueHandler::run` over the items of the queue, with no producer
running. Each `_queue.get()` takes the item at the front (FIFO) and blocks on an
empty queue. `answers k` is what the call number `k` of `handleInput` does
(`some b`: it returns `b`; `none`: it throws, and the `catch` raises `SIGABRT`). -/
def QueueHandler.runItems (answers : Nat → Option Bool) : Nat → List String → RunResult
  | _, [] => ⟨[], .blocked, []⟩
  | k, input :: q =>
    if input = "eof" then ⟨[], .finished, q⟩
    else
      match answers k with
      | none => ⟨[(input, (input.length : Int))], .aborted, q⟩
      | some false => ⟨[(input, (input.length : Int))], .finished, q⟩
      | some true =>
        ⟨(input, (input.length : Int)) :: (QueueHandler.runItems answers (k + 1) q).handled,
          (QueueHandler.runItems answers (k + 1) q).exit,
          (QueueHandler.runItems answers (k + 1) q).rest⟩

/-- The consumer `QueueHandler::run` started on a queue. -/
def QueueHandler.run (answers : Nat → Option Bool) (queue : MessageQueue) : RunResult :=
  QueueHandler.runItems answers 0 queue.items

/-- The teardown after the read loop: `queue.clear(); queue.put("eof");`. -/
def teardown (queue : MessageQueue) : MessageQueue :=
  (queue.clear).put "eof"

/-! ## The supervise loop of `LOOLWSD::main` -/

/-- The macro `WTERMSIG` of the Linux `sys/wait.h`. -/
def WTERMSIG (status : Nat) : Nat := status &&& 0x7f

/-- The macro `WEXITSTATUS` of the Linux `sys/wait.h`. -/
def WEXITSTATUS (status : Nat) : Nat := (status &&& 0xff00) >>> 8

/-- The macro `WSTOPSIG` of the Linux `sys/wait.h`. -/
def WSTOPSIG (status : Nat) : Nat := WEXITSTATUS status

/-- The macro `WIFEXITED` of the Linux `sys/wait.h`. -/
def WIFEXITED (status : Nat) : Bool := WTERMSIG status == 0

/-- Conversion to `signed char`. -/
def toSignedChar (x : Nat) : Int :=
  if x % 256 < 128 then ((x % 256 : Nat) : Int) else ((x % 256 : Nat) : Int) - 256

/-- The macro `WIFSIGNALED` of the Linux `sys/wait.h`:
`((signed char) ((status & 0x7f) + 1) >> 1) > 0`. -/
def WIFSIGNALED (status : Nat) : Bool :=
  decide (toSignedChar ((status &&& 0x7f) + 1) / 2 > 0)

/-- The macro `WIFSTOPPED` of the Linux `sys/wait.h`. -/
def WIFSTOPPED (status : Nat) : Bool := (status &&& 0xff) == 0x7f

/-- The macro `WIFCONTINUED` of the Linux `sys/wait.h`. -/
def WIFCONTINUED (status : Nat) : Bool := status == 0xffff

/-- The macro `WCOREDUMP` of the Linux `sys/wait.h`. -/
def WCOREDUMP (status : Nat) : Nat := status &&& 0x80

/-- The map `MasterProcessSession::_childProcesses` from PID to PID, as its list of
entries. -/
abbrev ChildProcesses := List (Int × Int)

/-- Whether `_childProcesses.find(pid) != _childProcesses.end()`. -/
def tracked (children : ChildProcesses) (pid : Int) : Bool :=
  children.any (fun e => e.1 == pid)

/-- The call `_childProcesses.erase(pid)`. -/
def eraseChild (children : ChildProcesses) (pid : Int) : ChildProcesses :=
  children.filter (fun e => e.1 != pid)

/-- The log lines and the sleep of the supervise loop. -/
inductive SupEffect where
  | logDied (pid : Int)
  | logCoreDump (pid : Int)
  | logStoppedBySignal (pid : Int)
  | logStopped (pid : Int)
  | logResumed (pid : Int)
  | logUnknown (pid : Int)
  | logChildError
  | sleep (seconds : Nat)
  deriving DecidableEq, Repr

/-- The reap step: the body of the supervise loop after `pid = waitpid(-1, &status,
WUNTRACED | WNOHANG)`, up to the pacing counter. -/
def reap (children : ChildProcesses) (pid : Int) (status : Nat) :
    ChildProcesses × List SupEffect :=
  if pid > 0 then
    if tracked children pid then
      ((if WIFEXITED status || WIFSIGNALED status || WTERMSIG status != 0 then
          eraseChild children pid else children),
       (if WIFEXITED status || WIFSIGNALED status || WTERMSIG status != 0 then
          [SupEffect.logDied pid] else []) ++
       (if WCOREDUMP status != 0 then [SupEffect.logCoreDump pid] else []) ++
       (if WIFSTOPPED status then [SupEffect.logStoppedBySignal pid] else []) ++
       (if WSTOPSIG status != 0 then [SupEffect.logStopped pid] else []) ++
       (if WIFCONTINUED status then [SupEffect.logResumed pid] else []))
    else (children, [SupEffect.logUnknown pid])
  else if pid < 0 then (children, [SupEffect.logChildError])
  else (children, [])

/-- The state of the supervise loop: the tracked children and `timeoutCounter`. -/
structure SupState where
  children : ChildProcesses
  timeoutCounter : Nat
  deriving DecidableEq, Repr

/-- One iteration of the supervise loop, for the `pid` and `status` that `waitpid`
answers: the reap step, then `if (timeoutCounter++ == INTERVAL_PROBES)` with its
reset and `sleep(MAINTENANCE_INTERVAL*2)`. The counter is an `unsigned`. -/
def superviseStep (C : Common) (st : SupState) (pid : Int) (status : Nat) :
    SupState × List SupEffect :=
  if st.timeoutCounter = C.INTERVAL_PROBES then
    (⟨(reap st.children pid status).1, 0⟩,
     (reap st.children pid status).2 ++ [SupEffect.sleep (C.MAINTENANCE_INTERVAL * 2)])
  else
    (⟨(reap st.children pid status).1, (st.timeoutCounter + 1) % 2 ^ 32⟩,
     (reap st.children pid status).2)

/-! ## Reference helpers

Concrete helpers, used to evaluate the handler on concrete frames. -/

/-- Modelled from the spec: `getFirstLine` of `LOOLProtocol.hpp` is not among the
sources. The first line of a frame is what precedes the first newline among its
first `n` bytes. -/
def getFirstLine (buffer : String) (n : Int) : String :=
  String.mk ((buffer.data.take n.toNat).takeWhile (fun c => c != Char.ofNat 10))

/-- Splits a list of characters at every occurrence of `sep`. -/
def splitAt (sep : Char) : List Char → List (List Char)
  | [] => [[]]
  | c :: cs =>
    if c = sep then [] :: splitAt sep cs
    else
      match splitAt sep cs with
      | [] => [[c]]
      | t :: ts => (c :: t) :: ts

/-- Removes leading and trailing whitespace. -/
def trimChars (cs : List Char) : List Char :=
  ((cs.dropWhile Char.isWhitespace).reverse.dropWhile Char.isWhitespace).reverse

/-- Modelled from the spec: the whitespace tokenizer applied to the first line
(`Poco::StringTokenizer` with separator `" "`, `TOK_IGNORE_EMPTY | TOK_TRIM`): the
line is split at spaces, each token is trimmed, empty tokens are dropped. -/
def tokenize (line : String) : List String :=
  (((splitAt ' ' line.data).map trimChars).filter (fun t => !t.isEmpty)).map String.mk

/-- The value of a non-empty string of decimal digits. -/
def digitsValue : List Char → Nat → Option Nat
  | [], _ => none
  | [c], acc => if c.isDigit then some (acc * 10 + (c.toNat - 48)) else none
  | c :: d :: cs, acc =>
    if c.isDigit then digitsValue (d :: cs) (acc * 10 + (c.toNat - 48)) else none

/-- An integer literal: an optional sign and decimal digits. -/
def integerValue : List Char → Option Int
  | '-' :: ds => (digitsValue ds 0).map (fun k => -(k : Int))
  | '+' :: ds => (digitsValue ds 0).map (fun k => (k : Int))
  | ds => (digitsValue ds 0).map (fun k => (k : Int))

/-- Drops `p` from the front of `cs`, if `cs` starts with it. -/
def dropFront : List Char → List Char → Option (List Char)
  | [], cs => some cs
  | _ :: _, [] => none
  | p :: ps, c :: cs => if p = c then dropFront ps cs else none

/-- Modelled from the spec: `getTokenInteger` of `LOOLProtocol.hpp` is not among
the sources. A token `name=<integer>` yields the integer, which is an `int`;
every other token yields nothing. -/
def getTokenInteger (token name : String) : Option Int :=
  match dropFront (name.data ++ ['=']) token.data with
  | none => none
  | some ds =>
    match integerValue ds with
    | none => none
    | some value => if -2147483648 ≤ value ∧ value ≤ 2147483647 then some value else none

/-- The reference helpers as a `LOOLProtocol`. -/
def refProtocol : LOOLProtocol := ⟨getFirstLine, tokenize, getTokenInteger⟩

/-- Reference constants for `Common.hpp`: the worker port 9981. -/
def refCommon : Common := ⟨9981, 10, 1⟩

/-- Modelled from the spec: `LOOLWSD::GenSessionId` is declared in `LOOLWSD.hpp`,
which is not among the sources. The identity is assigned from the process-wide
counter `NextSessionId` (an `unsigned`), which the call increments; the identity is
the rendering of the new value. -/
def GenSessionId (nextSessionId : Nat) : String × Nat :=
  (toString ((nextSessionId + 1) % 2 ^ 32), (nextSessionId + 1) % 2 ^ 32)

/-- The condition of the supervise loop, `!TerminationFlag && !LOOLWSD::doTest &&
MasterProcessSession::_childProcesses.size() > 0`. -/
def superviseCond (terminationFlag doTest : Bool) (children : ChildProcesses) : Bool :=
  !terminationFlag && !doTest && decide (children.length > 0)

/-- The supervise loop over the answers of the environment, one for each iteration:
the value of `TerminationFlag` read by the loop condition, and the `pid` and
`status` that `waitpid` answers. The result is the state when the loop is left, the
effects, and whether the loop has ended (`false`: it is still running when the
answers are used up). -/
def superviseLoop (C : Common) (doTest : Bool) :
    SupState → List (Bool × Int × Nat) → SupState × List SupEffect × Bool
  | st, [] => (st, [], doTest || st.children.length == 0)
  | st, (terminationFlag, pid, status) :: rest =>
    if superviseCond terminationFlag doTest st.children then
      ((superviseLoop C doTest (superviseStep C st pid status).1 rest).1,
       (superviseStep C st pid status).2 ++
         (superviseLoop C doTest (superviseStep C st pid status).1 rest).2.1,
       (superviseLoop C doTest (superviseStep C st pid status).1 rest).2.2)
    else (st, [], true)

/-- The operations of `LOOLWSD::main` after the supervise loop. -/
inductive ShutdownEffect where
  | inputThreadJoin
  | closeBrokerWritePipe
  | srvStop
  | srv2Stop
  | threadPoolJoinAll
  | threadPool2JoinAll
  | requestTermination (pid : Int)
  | waitpid
  | removeFile (path : String)
  deriving DecidableEq, Repr

/-- The end of `LOOLWSD::main`, after the supervise loop: `inputThread.join()` in
test mode, `close(BrokerWritePipe)`, `srv.stop()`, `srv2.stop()`,
`threadPool.joinAll()`, `threadPool2.joinAll()`, `Process::requestTermination` for
every entry of `_childProcesses`, the blocking `waitpid(-1, &status, WUNTRACED)`,
and `Util::removeFile(childRoot + jail, true)` for every entry `jail` that the
listing of `childRoot` answers. `children` holds the entries of the map in the
order of the iteration. -/
def shutdown (doTest : Bool) (childRoot : String) (children : ChildProcesses)
    (jails : List String) : List ShutdownEffect :=
  (if doTest then [ShutdownEffect.inputThreadJoin] else []) ++
  [ShutdownEffect.closeBrokerWritePipe, ShutdownEffect.srvStop, ShutdownEffect.srv2Stop,
    ShutdownEffect.threadPoolJoinAll, ShutdownEffect.threadPool2JoinAll] ++
  children.map (fun e => ShutdownEffect.requestTermination e.1) ++
  [ShutdownEffect.waitpid] ++
  jails.map (fun jail => ShutdownEffect.removeFile (childRoot ++ jail))

/-- Requests handled one after the other, in the order of their `GenSessionId`
calls: the counter `NextSessionId` left by one run of the handler is the one the
next run starts with. -/
def serve (C : Common) (P : LOOLProtocol) (G : Nat → String × Nat) :
    Nat → List (Request × Env) → List Outcome
  | _, [] => []
  | k, (request, env) :: rest =>
    handleRequest C P G request k env ::
      serve C P G (handleRequest C P G request k env).nextSessionId rest

/-- The identity of the ToClient session of a run of the handler, if it constructed
one. -/
def clientId (o : Outcome) : Option String :=
  match o.session with
  | some (id, Kind.ToClient) => some id
  | _ => none

/-- The identities of the ToClient sessions constructed by a sequence of runs, in
creation order. -/
def clientIds (outs : List Outcome) : List String :=
  outs.filterMap clientId

/-- The number that an identity renders in decimal digits. -/
def sessionNumber (id : String) : Nat :=
  id.data.foldl (fun acc c => acc * 10 + (c.toNat - 48)) 0

/-- Consecutive iterations of the supervise loop, one for each `pid` and `status`
that `waitpid` answers, as executed while the loop condition holds. The result is
the state after the last one and the effects of each iteration. -/
def superviseSteps (C : Common) : SupState → List (Int × Nat) → SupState × List (List SupEffect)
  | st, [] => (st, [])
  | st, (pid, status) :: rest =>
    ((superviseSteps C (superviseStep C st pid status).1 rest).1,
     (superviseStep C st pid status).2 ::
       (superviseSteps C (superviseStep C st pid status).1 rest).2)

/-- An iteration that reaches the second `receiveFrame`: the primary read returns a
data frame (n > 0, not PONG, not CLOSE, first line not "eof") that is not a
single-line ToClient frame, its first line passes the `nextmessage:` test with
`size`, and the stack holds `largeBuffer`. -/
def SecondRead (P : LOOLProtocol) (kind : Kind) (s : Step) (n : Int) (flags : Nat)
    (buffer : String) (size : Int) : Prop :=
  s.poll = PollResult.readable ∧
  s.recv = RecvResult.frame n flags buffer ∧
  n > 0 ∧
  flags &&& FRAME_OP_BITMASK ≠ FRAME_OP_PONG ∧
  flags &&& FRAME_OP_BITMASK ≠ FRAME_OP_CLOSE ∧
  P.getFirstLine buffer n ≠ "eof" ∧
  ¬ (kind = Kind.ToClient ∧ ((P.getFirstLine buffer n).length : Int) = n) ∧
  nextMessageSize P (P.tokenize (P.getFirstLine buffer n)) = some size ∧
  size ≤ s.stack

/-! ## Concrete inputs -/

/-- A text frame holding the single line `nextmessage: size=0` (19 bytes). -/
def zeroMarkerStep : Step :=
  ⟨.readable, .frame 19 0x81 "nextmessage: size=0", .frame 10 0x82 "0123456789", true, false,
    8000000⟩

/-- A text frame holding the single line `status` (6 bytes). -/
def statusStep : Step :=
  ⟨.readable, .frame 6 0x81 "status", .raise .IOException, true, false, 8000000⟩

/-- An upgraded request of a client on the client port 9980. -/
def clientRequest : Request := ⟨true, false, "/ws", 9980⟩

/-- An upgraded request of a worker: the reserved URI on the worker port. -/
def childRequest : Request := ⟨true, false, "/loolws/child/", 9981⟩

/-- A poll that reports data, followed by a frame read that throws a
`WebSocketException` (code 10, payload too big). -/
def failingReadStep : Step :=
  ⟨.readable, .raise (.WebSocketException 10), .raise .IOException, true, false, 8000000⟩

/-- The handshake succeeds and the first frame read throws. -/
def failingReadEnv : Env := ⟨none, 0, 0, [failingReadStep]⟩

/-- A PONG frame with an empty payload. -/
def pongStep : Step :=
  ⟨.readable, .frame 0 0x8a "", .raise .IOException, true, false, 8000000⟩

/-- A CLOSE frame with a two-byte status payload. -/
def closeStep : Step :=
  ⟨.readable, .frame 2 0x88 "\x03\xe8", .raise .IOException, true, false, 8000000⟩

/-- The handshake succeeds and the peer sends a CLOSE frame. -/
def closeEnv : Env := ⟨none, 0, 0, [closeStep]⟩

/-- Indeterminate initial values of the loop locals, for the concrete runs. -/
def vars0 : LoopVars := ⟨0, 0, true⟩

/-- Two client requests, each ended by a CLOSE frame. -/
def twoClients : List (Request × Env) :=
  [(clientRequest, closeEnv), (clientRequest, closeEnv)]

/-- A client request, a worker request and a second client request, each ended by
a CLOSE frame. -/
def clientChildClient : List (Request × Env) :=
  [(clientRequest, closeEnv), (childRequest, closeEnv), (clientRequest, closeEnv)]

/-- A poll that times out while the termination flag is clear. -/
def timeoutStep : Step :=
  ⟨.timeout, .raise .IOException, .raise .IOException, true, false, 8000000⟩

/-- A poll that times out; the termination flag is set when the loop condition is
checked. -/
def timeoutTerminationStep : Step :=
  ⟨.timeout, .raise .IOException, .raise .IOException, true, true, 8000000⟩

/-- The handshake succeeds, the peer sends the single line `status` and then a CLOSE
frame. -/
def statusCloseEnv : Env := ⟨none, 0, 0, [statusStep, closeStep]⟩

/-- The marker `nextmessage: size=10`, and a PONG frame with the payload `beat` as
the answer to the second read. -/
def pongAfterMarkerStep : Step :=
  ⟨.readable, .frame 20 0x81 "nextmessage: size=10", .frame 4 0x8a "beat", true, false,
    8000000⟩

/-- The marker `nextmessage: size=10`, and a PONG frame with an empty payload as the
answer to the second read. -/
def emptyPongAfterMarkerStep : Step :=
  ⟨.readable, .frame 20 0x81 "nextmessage: size=10", .frame 0 0x8a "", true, false,
    8000000⟩

/-- The marker `nextmessage: size=3` (19 bytes), and a text frame holding the single
line `eof` as the answer to the second read. -/
def eofAfterMarkerStep : Step :=
  ⟨.readable, .frame 19 0x81 "nextmessage: size=3", .frame 3 0x81 "eof", true, false,
    8000000⟩

/-- The marker `nextmessage: size=10`, and a CLOSE frame as the answer to the second
read. -/
def closeAfterMarkerStep : Step :=
  ⟨.readable, .frame 20 0x81 "nextmessage: size=10", .frame 2 0x88 "\x03\xe8", true, false,
    8000000⟩

/-! ## Theorems -/

/-- The body of the loop on a received data frame: the frame is queued for a
single-line ToClient frame; otherwise the `nextmessage:` test decides between the
large-message path (declaration of the array, then the second read if the stack
holds it) and the dispatch of the frame. -/
theorem loopBody_data (P : LOOLProtocol) (kind : Kind) (v : LoopVars) (s : Step)
    (n : Int) (flags : Nat) (buffer : String)
    (hpoll : s.poll = PollResult.readable)
    (hrecv : s.recv = RecvResult.frame n flags buffer)
    (hn : n > 0)
    (hpong : flags &&& FRAME_OP_BITMASK ≠ FRAME_OP_PONG)
    (hclose : flags &&& FRAME_OP_BITMASK ≠ FRAME_OP_CLOSE)
    (heof : P.getFirstLine buffer n ≠ "eof") :
    loopBody P kind v s =
      if kind = Kind.ToClient ∧ ((P.getFirstLine buffer n).length : Int) = n then
        ([.poll, .receiveFrame BUFFER_SIZE, .queuePut (P.getFirstLine buffer n)],
          .next ⟨n, flags, true⟩)
      else
        match nextMessageSize P (P.tokenize (P.getFirstLine buffer n)) with
        | some size =>
          if size ≤ s.stack then
            match s.recv2 with
            | .raise e =>
              ([.poll, .receiveFrame BUFFER_SIZE, .allocate size, .receiveFrame size],
                .raised e)
            | .frame n2 flags2 largeBuffer =>
              if n2 > 0 ∧ flags2 &&& FRAME_OP_BITMASK ≠ FRAME_OP_CLOSE then
                ([.poll, .receiveFrame BUFFER_SIZE, .allocate size, .receiveFrame size,
                  .handleInput largeBuffer n2],
                 .next ⟨if s.handled then n2 else 0, flags2, true⟩)
              else
                ([.poll, .receiveFrame BUFFER_SIZE, .allocate size, .receiveFrame size],
                 .next ⟨n2, flags2, true⟩)
          else
            ([.poll, .receiveFrame BUFFER_SIZE, .allocate size, .segfault], .crashed)
        | none =>
          ([.poll, .receiveFrame BUFFER_SIZE, .handleInput buffer n],
           .next ⟨if s.handled then n else 0, flags, true⟩) := by
  unfold loopBody
  rw [hpoll, hrecv]
  simp only [hpong, hn, hclose, heof, if_false, if_true, ne_eq, not_false_eq_true, and_self]

/-- The body of the loop in an iteration that reaches the second read: the frame
that answers it is passed to `handleInput` when n > 0 and it is not a CLOSE frame;
no other test is applied to it. -/
theorem loopBody_second_read (P : LOOLProtocol) (kind : Kind) (v : LoopVars) (s : Step)
    (n : Int) (flags : Nat) (buffer : String) (size : Int)
    (h : SecondRead P kind s n flags buffer size)
    (n2 : Int) (flags2 : Nat) (payload : String)
    (hrecv2 : s.recv2 = RecvResult.frame n2 flags2 payload) :
    loopBody P kind v s =
      if n2 > 0 ∧ flags2 &&& FRAME_OP_BITMASK ≠ FRAME_OP_CLOSE then
        ([.poll, .receiveFrame BUFFER_SIZE, .allocate size, .receiveFrame size,
          .handleInput payload n2],
         .next ⟨if s.handled then n2 else 0, flags2, true⟩)
      else
        ([.poll, .receiveFrame BUFFER_SIZE, .allocate size, .receiveFrame size],
         .next ⟨n2, flags2, true⟩) := by
  obtain ⟨hpoll, hrecv, hn, hpong, hclose, heof, hq, hsize, hfit⟩ := h
  rw [loopBody_data P kind v s n flags buffer hpoll hrecv hn hpong hclose heof, if_neg hq,
    hsize]
  simp only [hfit, if_true, hrecv2]

/-- The `nextmessage:` test fails when there are not exactly two tokens. -/
theorem nextMessageSize_count (P : LOOLProtocol) (tokens : List String)
    (h : tokens.length ≠ 2) : nextMessageSize P tokens = none := by
  unfold nextMessageSize
  split
  · simp at h
  · rfl

/-- The `nextmessage:` test fails when the size token has no positive value. -/
theorem nextMessageSize_nonpos (P : LOOLProtocol) (t0 t1 : String)
    (h : ∀ size, P.getTokenInteger t1 "size" = some size → size ≤ 0) :
    nextMessageSize P [t0, t1] = none := by
  unfold nextMessageSize
  by_cases h0 : t0 = "nextmessage:"
  · cases hg : P.getTokenInteger t1 "size" with
    | none => simp [h0, hg]
    | some size =>
      have := h size hg
      simp [h0, hg, not_lt.mpr this]
  · simp [h0]

/-- C3: for a received data frame whose first line does not have exactly two
tokens, or is `nextmessage:` followed by a token whose size is absent, not an
integer, zero or negative, exactly one frame read is issued (no second read), and
the frame is queued when it is a single-line ToClient frame and otherwise passed
unchanged (the original buffer and `n`) to `handleInput`. -/
theorem C3_no_large_message (P : LOOLProtocol) (kind : Kind) (v : LoopVars) (s : Step)
    (n : Int) (flags : Nat) (buffer : String)
    (hpoll : s.poll = PollResult.readable)
    (hrecv : s.recv = RecvResult.frame n flags buffer)
    (hn : n > 0)
    (hpong : flags &&& FRAME_OP_BITMASK ≠ FRAME_OP_PONG)
    (hclose : flags &&& FRAME_OP_BITMASK ≠ FRAME_OP_CLOSE)
    (heof : P.getFirstLine buffer n ≠ "eof")
    (hbad : (P.tokenize (P.getFirstLine buffer n)).length ≠ 2 ∨
      ∃ t1, P.tokenize (P.getFirstLine buffer n) = ["nextmessage:", t1] ∧
        ∀ size, P.getTokenInteger t1 "size" = some size → size ≤ 0) :
    (loopBody P kind v s).1 =
      if kind = Kind.ToClient ∧ ((P.getFirstLine buffer n).length : Int) = n then
        [.poll, .receiveFrame BUFFER_SIZE, .queuePut (P.getFirstLine buffer n)]
      else [.poll, .receiveFrame BUFFER_SIZE, .handleInput buffer n] := by
  have hnone : nextMessageSize P (P.tokenize (P.getFirstLine buffer n)) = none := by
    rcases hbad with h | ⟨t1, ht, h⟩
    · exact nextMessageSize_count P _ h
    · rw [ht]
      exact nextMessageSize_nonpos P _ t1 h
  rw [loopBody_data P kind v s n flags buffer hpoll hrecv hn hpong hclose heof, hnone]
  by_cases hq : kind = Kind.ToClient ∧ ((P.getFirstLine buffer n).length : Int) = n
  · rw [if_pos hq, if_pos hq]
  · rw [if_neg hq, if_neg hq]

/-- C3 at the ToPrisoner frame `nextmessage: size=0`: one read, and the frame itself
is dispatched. -/
theorem C3_no_large_message_witness :
    refProtocol.tokenize (refProtocol.getFirstLine "nextmessage: size=0" 19) =
      ["nextmessage:", "size=0"] ∧
    (loopBody refProtocol Kind.ToPrisoner vars0 zeroMarkerStep).1 =
      [.poll, .receiveFrame BUFFER_SIZE, .handleInput "nextmessage: size=0" 19] :=
  ⟨by decide,
    (C3_no_large_message refProtocol Kind.ToPrisoner vars0 zeroMarkerStep 19 0x81
      "nextmessage: size=0" rfl rfl (by decide) (by decide) (by decide) (by decide)
      (Or.inr ⟨"size=0", by decide, by
        intro size h
        have h0 : refProtocol.getTokenInteger "size=0" "size" = some 0 := by decide
        rw [h0] at h
        cases h
        exact le_refl 0⟩)).trans (by decide)⟩

/-- The teardown on the normal path: when control leaves the read loop without an
exception, the handler clears the queue, puts the sentinel and joins the consumer thread, in
this order, as its last effects. -/
theorem handleRequest_teardown (C : Common) (P : LOOLProtocol) (G : Nat → String × Nat)
    (request : Request) (k : Nat) (env : Env) (es : List Effect)
    (hup : request.upgrade = true) (hws : env.handshake = none)
    (hleft : readLoop P (sessionKind C request) ⟨env.n0, env.flags0, true⟩ env.steps =
      (es, LoopExit.left)) :
    ∃ pre, (handleRequest C P G request k env).trace =
      pre ++ es ++ [.queueClear, .queuePut "eof", .threadJoin] := by
  unfold handleRequest
  simp only [hup, hws, hleft, Bool.true_eq_false, if_false]
  exact ⟨_, rfl⟩

/-- C5: the code misses the teardown on the exception path. For a ToClient session
whose consumer thread was started, a frame read that throws makes the handler
return without clearing the queue, without putting the sentinel and without
joining the consumer thread. -/
theorem C5_exception_skips_teardown :
    handleRequest refCommon refProtocol GenSessionId clientRequest 0 failingReadEnv =
      ⟨[.genSessionId, .newSession "1" Kind.ToClient, .threadStart, .poll,
          .receiveFrame BUFFER_SIZE],
        some ("1", Kind.ToClient), 1, true⟩ ∧
    Effect.queueClear ∉
      (handleRequest refCommon refProtocol GenSessionId clientRequest 0 failingReadEnv).trace ∧
    Effect.queuePut "eof" ∉
      (handleRequest refCommon refProtocol GenSessionId clientRequest 0 failingReadEnv).trace ∧
    Effect.threadJoin ∉
      (handleRequest refCommon refProtocol GenSessionId clientRequest 0 failingReadEnv).trace := by
  decide

/-- Every execution of the loop body starts with a poll. -/
theorem loopBody_starts_with_poll (P : LOOLProtocol) (kind : Kind) (v : LoopVars) (s : Step) :
    ∃ tail, (loopBody P kind v s).1 = Effect.poll :: tail := by
  unfold loopBody
  dsimp only
  repeat' split
  all_goals exact ⟨_, rfl⟩

/-- Every iteration of the read loop starts with a poll. -/
theorem readLoop_starts_with_poll (P : LOOLProtocol) (kind : Kind) (v : LoopVars) (s : Step)
    (rest : List Step) : ∃ tail, (readLoop P kind v (s :: rest)).1 = Effect.poll :: tail := by
  obtain ⟨t, ht⟩ := loopBody_starts_with_poll P kind v s
  unfold readLoop
  split
  · next es e h => rw [h] at ht; exact ⟨t, ht⟩
  · next es h => rw [h] at ht; exact ⟨t, ht⟩
  · next es h => rw [h] at ht; exact ⟨t, ht⟩
  · next es w h =>
    rw [h] at ht
    simp only at ht
    split
    · exact ⟨t ++ (readLoop P kind w rest).1, by simp [ht]⟩
    · exact ⟨t, ht⟩

/-- C8: for every sequence of commands put on the queue, after the teardown (clear,
then put of the sentinel) a consumer that dequeues from that state calls
`handleInput` for none of the commands and finishes on the sentinel, whatever the
input handler would answer. -/
theorem C8_clear_then_sentinel (answers : Nat → Option Bool) (q0 : MessageQueue)
    (cmds : List String) :
    QueueHandler.run answers (teardown (cmds.foldl MessageQueue.put q0)) =
      ⟨[], RunExit.finished, []⟩ := by
  simp [QueueHandler.run, teardown, MessageQueue.clear, MessageQueue.put,
    QueueHandler.runItems]

/-- The body of the read loop never calls `GenSessionId`. -/
theorem loopBody_count_genSessionId (P : LOOLProtocol) (kind : Kind) (v : LoopVars)
    (s : Step) : (loopBody P kind v s).1.count Effect.genSessionId = 0 := by
  unfold loopBody
  dsimp only
  repeat' split
  all_goals simp [List.count_cons]

/-- The read loop never calls `GenSessionId`. -/
theorem readLoop_count_genSessionId (P : LOOLProtocol) (kind : Kind) (steps : List Step) :
    ∀ v, (readLoop P kind v steps).1.count Effect.genSessionId = 0 := by
  induction steps with
  | nil => intro v; rfl
  | cons s rest ih =>
    intro v
    have hb := loopBody_count_genSessionId P kind v s
    unfold readLoop
    split
    · next es e h => rw [h] at hb; exact hb
    · next es h => rw [h] at hb; exact hb
    · next es h => rw [h] at hb; exact hb
    · next es w h =>
      rw [h] at hb
      simp only at hb
      split
      · simp [List.count_append, hb, ih w]
      · exact hb

/-- The `catch` blocks never call `GenSessionId`. -/
theorem catchEffects_count_genSessionId (e : Exc) :
    (catchEffects e).count Effect.genSessionId = 0 := by
  cases e with
  | IOException => rfl
  | WebSocketException code =>
    simp only [catchEffects]
    split <;> simp [List.count_cons]

/-- C9: for every upgraded request whose WebSocket is established, the session kind
is ToPrisoner if and only if the URI equals `CHILD_URI` and the request arrived on
`MASTER_PORT_NUMBER`; a ToPrisoner session is constructed with the empty identity,
`GenSessionId` is not called and the counter is unchanged; every other session is
ToClient, is constructed with the result of `GenSessionId`, and `GenSessionId` is
called exactly once. -/
theorem C9_classification (C : Common) (P : LOOLProtocol) (G : Nat → String × Nat)
    (request : Request) (k : Nat) (env : Env)
    (hup : request.upgrade = true) (hws : env.handshake = none) :
    (((handleRequest C P G request k env).session.map Prod.snd = some Kind.ToPrisoner) ↔
      (request.uri = CHILD_URI ∧ request.port = C.MASTER_PORT_NUMBER)) ∧
    ((request.uri = CHILD_URI ∧ request.port = C.MASTER_PORT_NUMBER) →
      (handleRequest C P G request k env).session = some ("", Kind.ToPrisoner) ∧
      (handleRequest C P G request k env).trace.count Effect.genSessionId = 0 ∧
      (handleRequest C P G request k env).nextSessionId = k) ∧
    (¬ (request.uri = CHILD_URI ∧ request.port = C.MASTER_PORT_NUMBER) →
      (handleRequest C P G request k env).session = some ((G k).1, Kind.ToClient) ∧
      (handleRequest C P G request k env).trace.count Effect.genSessionId = 1 ∧
      (handleRequest C P G request k env).nextSessionId = (G k).2) := by
  have hloop := readLoop_count_genSessionId P (sessionKind C request) env.steps
    ⟨env.n0, env.flags0, true⟩
  by_cases hc : request.uri = CHILD_URI ∧ request.port = C.MASTER_PORT_NUMBER
  · have hk : sessionKind C request = Kind.ToPrisoner := by simp [sessionKind, hc]
    rw [hk] at hloop
    have hall : (handleRequest C P G request k env).session = some ("", Kind.ToPrisoner) ∧
        (handleRequest C P G request k env).trace.count Effect.genSessionId = 0 ∧
        (handleRequest C P G request k env).nextSessionId = k := by
      unfold handleRequest
      simp only [hup, hws, hk, Bool.true_eq_false, if_false]
      split
      · next es h =>
        rw [h] at hloop
        simp only at hloop
        simp [List.count_append, hloop]
      · next es e h =>
        rw [h] at hloop
        simp only at hloop
        simp [List.count_append, hloop, catchEffects_count_genSessionId]
      · next es h =>
        rw [h] at hloop
        simp only at hloop
        simp [List.count_append, hloop]
      · next es h =>
        rw [h] at hloop
        simp only at hloop
        simp [List.count_append, hloop]
    refine ⟨⟨fun _ => hc, fun _ => ?_⟩, fun _ => hall, fun h => absurd hc h⟩
    rw [hall.1]
    rfl
  · have hk : sessionKind C request = Kind.ToClient := by simp [sessionKind, hc]
    rw [hk] at hloop
    have hall : (handleRequest C P G request k env).session = some ((G k).1, Kind.ToClient) ∧
        (handleRequest C P G request k env).trace.count Effect.genSessionId = 1 ∧
        (handleRequest C P G request k env).nextSessionId = (G k).2 := by
      unfold handleRequest
      simp only [hup, hws, hk, Bool.true_eq_false, if_false]
      split
      · next es h =>
        rw [h] at hloop
        simp only at hloop
        simp [List.count_append, hloop]
      · next es e h =>
        rw [h] at hloop
        simp only at hloop
        simp [List.count_append, hloop, catchEffects_count_genSessionId]
      · next es h =>
        rw [h] at hloop
        simp only at hloop
        simp [List.count_append, hloop]
      · next es h =>
        rw [h] at hloop
        simp only at hloop
        simp [List.count_append, hloop]
    refine ⟨⟨fun h => ?_, fun h => absurd h hc⟩, fun h => absurd h hc, fun _ => hall⟩
    rw [hall.1] at h
    simp at h

/-- C9 at a worker request (reserved URI on the worker port) whose peer sends a
CLOSE frame: the session is ToPrisoner with the empty identity and the counter
keeps its value 7. -/
theorem C9_classification_witness :
    (handleRequest refCommon refProtocol GenSessionId childRequest 7 closeEnv).session =
      some ("", Kind.ToPrisoner) ∧
    (handleRequest refCommon refProtocol GenSessionId childRequest 7 closeEnv).trace.count
      Effect.genSessionId = 0 ∧
    (handleRequest refCommon refProtocol GenSessionId childRequest 7 closeEnv).nextSessionId = 7 :=
  (C9_classification refCommon refProtocol GenSessionId childRequest 7 closeEnv rfl rfl).2.1
    (by decide)

/-- A wait status with WIFSTOPPED or WIFCONTINUED has a non-zero WTERMSIG field. -/
theorem WTERMSIG_of_stopped_or_continued (status : Nat)
    (h : WIFSTOPPED status = true ∨ WIFCONTINUED status = true) : WTERMSIG status = 0x7f := by
  unfold WTERMSIG
  rcases h with h | h
  · have h1 : status &&& 0xff = 0x7f := by simpa [WIFSTOPPED] using h
    have h2 : status &&& 0x7f = (status &&& 0xff) &&& 0x7f := by
      rw [Nat.land_assoc]
      rfl
    rw [h2, h1]
    rfl
  · have h1 : status = 0xffff := by simpa [WIFCONTINUED] using h
    rw [h1]
    rfl

/-- The reap step erases a tracked PID for every wait status that reports a stop or
a continue: the test `WTERMSIG(status)` of the erase condition is non-zero for all
of them. -/
theorem reap_stopped_or_continued (children : ChildProcesses) (pid : Int) (status : Nat)
    (hpid : pid > 0) (htracked : tracked children pid = true)
    (h : WIFSTOPPED status = true ∨ WIFCONTINUED status = true) :
    (reap children pid status).1 = eraseChild children pid := by
  have ht := WTERMSIG_of_stopped_or_continued status h
  unfold reap
  simp [hpid, htracked, ht]

/-- C10: the code erases a stopped child. For the tracked PID 1234 and the wait
status 0x137f (stopped by SIGSTOP: WIFSTOPPED holds, neither WIFEXITED nor
WIFSIGNALED holds) the reap step logs that the child died and removes the PID from
the tracked set. -/
theorem C10_stopped_child_erased :
    WIFSTOPPED 0x137f = true ∧ WIFEXITED 0x137f = false ∧ WIFSIGNALED 0x137f = false ∧
    tracked [(1234, 1234), (1240, 1240)] 1234 = true ∧
    reap [(1234, 1234), (1240, 1240)] 1234 0x137f =
      ([(1240, 1240)],
        [.logDied 1234, .logStoppedBySignal 1234, .logStopped 1234]) ∧
    tracked (reap [(1234, 1234), (1240, 1240)] 1234 0x137f).1 1234 = false := by
  decide

/-- The erase of a PID leaves no entry with that PID. -/
theorem tracked_eraseChild (children : ChildProcesses) (pid : Int) :
    tracked (eraseChild children pid) pid = false := by
  simp [tracked, eraseChild, List.any_eq_false, List.mem_filter]

/-- The entries left by an erase are the old entries with another PID. -/
theorem mem_eraseChild (children : ChildProcesses) (pid : Int) (e : Int × Int) :
    e ∈ eraseChild children pid ↔ (e ∈ children ∧ e.1 ≠ pid) := by
  simp [eraseChild, List.mem_filter]

/-- C11: for every tracked set and every reaped PID p in it whose status is a normal
exit or a death by signal, the reap step yields the old tracked set without p: p is
no longer tracked, and the entries left are exactly the old entries (PID and mapped
value) with a PID other than p. -/
theorem C11_reap_removes_exactly (children : ChildProcesses) (pid : Int) (status : Nat)
    (hpid : pid > 0) (htracked : tracked children pid = true)
    (hdead : WIFEXITED status = true ∨ WIFSIGNALED status = true) :
    (reap children pid status).1 = children.filter (fun e => e.1 != pid) ∧
    tracked (reap children pid status).1 pid = false ∧
    ∀ e : Int × Int, e ∈ (reap children pid status).1 ↔ (e ∈ children ∧ e.1 ≠ pid) := by
  have hreap : (reap children pid status).1 = eraseChild children pid := by
    unfold reap
    rcases hdead with h | h <;> simp [hpid, htracked, h]
  rw [hreap]
  exact ⟨rfl, tracked_eraseChild children pid, mem_eraseChild children pid⟩

/-- C11 at two tracked workers, 100 and 101, of which 100 is killed by SIGKILL (wait
status 9): the other one remains. -/
theorem C11_reap_removes_exactly_witness :
    (reap [(100, 100), (101, 101)] 100 9).1 = [(101, 101)] :=
  (C11_reap_removes_exactly [(100, 100), (101, 101)] 100 9 (by decide) (by decide)
    (Or.inr (by decide))).1.trans (by decide)

/-- C12: a reap step for a PID that is not in the tracked set leaves the tracked set
unchanged and, for a positive PID, only logs the anomaly; hence after a normally
exited PID has been removed by one reap step, a second reap step that reports the
same PID, with any status, changes nothing, and the PID is not tracked afterwards. -/
theorem C12_spurious_reap (children : ChildProcesses) (pid : Int) (status : Nat) :
    (tracked children pid = false →
      (reap children pid status).1 = children ∧
      (pid > 0 → (reap children pid status).2 = [SupEffect.logUnknown pid])) ∧
    (pid > 0 → tracked children pid = true → WIFEXITED status = true →
      ∀ status2 : Nat,
        (reap (reap children pid status).1 pid status2).1 = (reap children pid status).1 ∧
        tracked (reap (reap children pid status).1 pid status2).1 pid = false) := by
  have huntracked : ∀ (c : ChildProcesses) (st : Nat), tracked c pid = false →
      (reap c pid st).1 = c := by
    intro c st h
    unfold reap
    by_cases hp : pid > 0
    · simp [hp, h]
    · by_cases hn : pid < 0 <;> simp [hp, hn]
  refine ⟨fun h => ⟨huntracked children status h, fun hp => ?_⟩, fun hp ht hx status2 => ?_⟩
  · unfold reap
    simp [hp, h]
  · have hreap : (reap children pid status).1 = eraseChild children pid := by
      unfold reap
      simp [hp, ht, hx]
    have hgone : tracked (reap children pid status).1 pid = false := by
      rw [hreap]
      exact tracked_eraseChild children pid
    rw [huntracked _ status2 hgone]
    exact ⟨rfl, hgone⟩

/-- C12 at the tracked workers 100 and 101: 100 exits normally (status 0) and is
removed; a second reap of 100, reported as killed (status 9), changes nothing. -/
theorem C12_spurious_reap_witness :
    (reap (reap [(100, 100), (101, 101)] 100 0).1 100 9).1 =
      (reap [(100, 100), (101, 101)] 100 0).1 ∧
    tracked (reap (reap [(100, 100), (101, 101)] 100 0).1 100 9).1 100 = false :=
  (C12_spurious_reap [(100, 100), (101, 101)] 100 0).2 (by decide) (by decide) (by decide) 9

/-- A PID is tracked exactly when it is the key of an entry. -/
theorem tracked_iff_mem_keys (children : ChildProcesses) (pid : Int) :
    tracked children pid = true ↔ pid ∈ children.map Prod.fst := by
  simp [tracked, List.any_eq_true, List.mem_map]

/-- C13: after the supervise loop the shutdown performs, in this order: the stop of
both HTTP servers, the join of both thread pools, one termination request for every
entry of the tracked set (exactly one for each tracked PID, the keys of the map being
distinct, and none for any other PID), then the single blocking wait, and after it
only the removal of the jail directories. -/
theorem C13_shutdown_order (doTest : Bool) (childRoot : String) (children : ChildProcesses)
    (jails : List String) (hkeys : (children.map Prod.fst).Nodup) :
    (∃ pre, shutdown doTest childRoot children jails =
      pre ++ [ShutdownEffect.srvStop, ShutdownEffect.srv2Stop,
        ShutdownEffect.threadPoolJoinAll, ShutdownEffect.threadPool2JoinAll] ++
      children.map (fun e => ShutdownEffect.requestTermination e.1) ++
      [ShutdownEffect.waitpid] ++
      jails.map (fun jail => ShutdownEffect.removeFile (childRoot ++ jail)) ∧
      ∀ e ∈ pre, e = ShutdownEffect.inputThreadJoin ∨ e = ShutdownEffect.closeBrokerWritePipe) ∧
    (∀ pid : Int, (shutdown doTest childRoot children jails).count
      (ShutdownEffect.requestTermination pid) = if tracked children pid then 1 else 0) ∧
    (shutdown doTest childRoot children jails).count ShutdownEffect.waitpid = 1 := by
  have hterm : ∀ pid : Int,
      (children.map (fun e => ShutdownEffect.requestTermination e.1)).count
        (ShutdownEffect.requestTermination pid) = if tracked children pid then 1 else 0 := by
    intro pid
    have hmap : children.map (fun e => ShutdownEffect.requestTermination e.1) =
        (children.map Prod.fst).map ShutdownEffect.requestTermination := by
      simp [List.map_map, Function.comp_def]
    have hinj : Function.Injective ShutdownEffect.requestTermination := by
      intro a b h
      injection h
    rw [hmap, List.count_map_of_injective _ _ hinj, List.count_eq_of_nodup hkeys]
    by_cases ht : tracked children pid = true
    · rw [if_pos ((tracked_iff_mem_keys children pid).mp ht), if_pos ht]
    · rw [if_neg (fun h => ht ((tracked_iff_mem_keys children pid).mpr h)), if_neg ht]
  have hjails : ∀ x : ShutdownEffect, (∀ p, x ≠ ShutdownEffect.removeFile p) →
      (jails.map (fun jail => ShutdownEffect.removeFile (childRoot ++ jail))).count x = 0 := by
    intro x hx
    rw [List.count_eq_zero]
    intro hmem
    obtain ⟨j, _, hj⟩ := List.mem_map.mp hmem
    exact hx _ hj.symm
  have hwait : (children.map (fun e => ShutdownEffect.requestTermination e.1)).count
      ShutdownEffect.waitpid = 0 := by
    rw [List.count_eq_zero]
    intro hmem
    obtain ⟨e, _, he⟩ := List.mem_map.mp hmem
    cases he
  refine ⟨⟨(if doTest then [ShutdownEffect.inputThreadJoin] else []) ++
      [ShutdownEffect.closeBrokerWritePipe], ?_, ?_⟩, fun pid => ?_, ?_⟩
  · simp [shutdown]
  · intro e he
    cases doTest <;> simp at he <;> tauto
  · unfold shutdown
    rw [List.count_append, List.count_append, List.count_append, List.count_append, hterm pid,
      hjails _ (fun p h => by cases h)]
    cases doTest <;> simp [List.count_cons]
  · unfold shutdown
    rw [List.count_append, List.count_append, List.count_append, List.count_append, hwait,
      hjails _ (fun p h => by cases h)]
    cases doTest <;> simp [List.count_cons]

/-- C13 at the tracked PIDs 100 and 101 and two jails: one termination request for
100, none for the untracked PID 102, and one blocking wait. -/
theorem C13_shutdown_order_witness :
    (shutdown false "/jails/" [(100, 100), (101, 101)] ["a", "b"]).count
      (ShutdownEffect.requestTermination 100) = 1 ∧
    (shutdown false "/jails/" [(100, 100), (101, 101)] ["a", "b"]).count
      (ShutdownEffect.requestTermination 102) = 0 ∧
    (shutdown false "/jails/" [(100, 100), (101, 101)] ["a", "b"]).count
      ShutdownEffect.waitpid = 1 :=
  ⟨((C13_shutdown_order false "/jails/" [(100, 100), (101, 101)] ["a", "b"]
      (by decide)).2.1 100).trans (by decide),
    ((C13_shutdown_order false "/jails/" [(100, 100), (101, 101)] ["a", "b"]
      (by decide)).2.1 102).trans (by decide),
    (C13_shutdown_order false "/jails/" [(100, 100), (101, 101)] ["a", "b"]
      (by decide)).2.2⟩

/-- C14, as stated, fails: the counter is an `unsigned` and wraps. Two ToClient
sessions created one after the other when the counter holds 4294967294 get the
identities 4294967295 and 0, which are not increasing. -/
theorem C14_counterexample :
    clientIds (serve refCommon refProtocol GenSessionId 4294967294 twoClients) =
      ["4294967295", "0"] ∧
    (clientIds (serve refCommon refProtocol GenSessionId 4294967294 twoClients)).map
      sessionNumber = [4294967295, 0] := by
  decide

/-- The decimal digit character of `d < 10` has the value `d`. -/
theorem digitChar_value : ∀ d, d < 10 → (Nat.digitChar d).toNat - 48 = d := by
  decide

/-- Reading back the digits that `Nat.toDigitsCore` puts in front of `ds`. -/
theorem foldl_toDigitsCore (fuel : Nat) : ∀ (n : Nat) (ds : List Char), n < fuel →
    (Nat.toDigitsCore 10 fuel n ds).foldl (fun acc c => acc * 10 + (c.toNat - 48)) 0 =
      ds.foldl (fun acc c => acc * 10 + (c.toNat - 48)) n := by
  induction fuel with
  | zero => intro n ds h; omega
  | succ fuel ih =>
    intro n ds h
    have hd : (Nat.digitChar (n % 10)).toNat - 48 = n % 10 :=
      digitChar_value (n % 10) (Nat.mod_lt _ (by decide))
    unfold Nat.toDigitsCore
    by_cases h0 : n / 10 = 0
    · simp only [h0, if_true, List.foldl_cons, hd]
      have hn : 0 * 10 + n % 10 = n := by omega
      rw [hn]
    · simp only [h0, if_false]
      rw [ih (n / 10) _ (by omega), List.foldl_cons, hd]
      have hn : n / 10 * 10 + n % 10 = n := by omega
      rw [hn]

/-- The number rendered by the decimal rendering of `n` is `n`. -/
theorem sessionNumber_toString (n : Nat) : sessionNumber (toString n) = n := by
  show (Nat.repr n).data.foldl (fun acc c => acc * 10 + (c.toNat - 48)) 0 = n
  simp only [Nat.repr, Nat.toDigits, List.asString]
  rw [foldl_toDigitsCore (n + 1) n [] (by omega)]
  rfl

/-- One run of the handler either constructs a ToClient session with the result of
`GenSessionId` and leaves the counter that `GenSessionId` returns, or constructs no
session or a ToPrisoner session with the empty identity and leaves the counter as
it is. -/
theorem handleRequest_session (C : Common) (P : LOOLProtocol) (G : Nat → String × Nat)
    (request : Request) (k : Nat) (env : Env) :
    ((handleRequest C P G request k env).session = some ((G k).1, Kind.ToClient) ∧
      (handleRequest C P G request k env).nextSessionId = (G k).2) ∨
    (((handleRequest C P G request k env).session = none ∨
        (handleRequest C P G request k env).session = some ("", Kind.ToPrisoner)) ∧
      (handleRequest C P G request k env).nextSessionId = k) := by
  unfold handleRequest
  by_cases hup : request.upgrade = false
  · by_cases hc : request.convertTo = true <;> simp [hup, hc]
  · have hup1 : request.upgrade = true := by simpa using hup
    simp only [hup1, Bool.true_eq_false, if_false]
    cases env.handshake with
    | some e => simp
    | none =>
      simp only
      cases hk : sessionKind C request <;> split <;> simp

/-- The numbers of the ToClient identities of a sequence of runs are consecutive,
from the counter plus one, as long as the counter does not wrap. -/
theorem clientNumbers_serve (C : Common) (P : LOOLProtocol) :
    ∀ (reqs : List (Request × Env)) (k : Nat), k + reqs.length < 2 ^ 32 →
      ∃ m, (clientIds (serve C P GenSessionId k reqs)).map sessionNumber =
        List.range' (k + 1) m := by
  intro reqs
  induction reqs with
  | nil =>
    intro k _
    exact ⟨0, rfl⟩
  | cons r rest ih =>
    intro k hk
    obtain ⟨request, env⟩ := r
    have hlen : k + (rest.length + 1) < 2 ^ 32 := by simpa using hk
    rcases handleRequest_session C P GenSessionId request k env with ⟨hs, hn⟩ | ⟨hs, hn⟩
    · have hmod : (k + 1) % 2 ^ 32 = k + 1 := Nat.mod_eq_of_lt (by omega)
      have hg : GenSessionId k = (toString (k + 1), k + 1) := by
        unfold GenSessionId
        rw [hmod]
      rw [hg] at hs hn
      have hid : clientId (handleRequest C P GenSessionId request k env) =
          some (toString (k + 1)) := by
        simp [clientId, hs]
      have hnext : (handleRequest C P GenSessionId request k env).nextSessionId = k + 1 := hn
      obtain ⟨m, hm⟩ := ih (k + 1) (by omega)
      refine ⟨m + 1, ?_⟩
      simp only [serve, clientIds, List.filterMap_cons, hid, List.map_cons,
        sessionNumber_toString, hnext]
      rw [List.range'_succ]
      exact congrArg _ hm
    · have hid : clientId (handleRequest C P GenSessionId request k env) = none := by
        rcases hs with h | h <;> simp [clientId, h]
      obtain ⟨m, hm⟩ := ih k (by omega)
      refine ⟨m, ?_⟩
      simp only [serve, clientIds, List.filterMap_cons, hid, hn]
      exact hm

/-- Every ToPrisoner session of a sequence of runs has the empty identity. -/
theorem prisoner_identity_serve (C : Common) (P : LOOLProtocol) (G : Nat → String × Nat) :
    ∀ (reqs : List (Request × Env)) (k : Nat), ∀ o ∈ serve C P G k reqs,
      ∀ id, o.session = some (id, Kind.ToPrisoner) → id = "" := by
  intro reqs
  induction reqs with
  | nil =>
    intro k o ho
    simp [serve] at ho
  | cons r rest ih =>
    intro k o ho id hsession
    obtain ⟨request, env⟩ := r
    simp only [serve, List.mem_cons] at ho
    rcases ho with rfl | ho
    · rcases handleRequest_session C P G request k env with ⟨hs, _⟩ | ⟨hs | hs, _⟩
      · rw [hs] at hsession
        simp at hsession
      · rw [hs] at hsession
        simp at hsession
      · rw [hs] at hsession
        simp at hsession
        exact hsession.symm
    · exact ih _ o ho id hsession

/-- C14, amended: for every sequence of sessions created while the 32-bit counter
`NextSessionId` does not wrap, the identities given to the ToClient sessions render
consecutive counter values, so they are strictly increasing in creation order and
pairwise distinct; every ToPrisoner session has the empty identity. -/
theorem C14_session_identities (C : Common) (P : LOOLProtocol) (reqs : List (Request × Env))
    (k : Nat) (hbound : k + reqs.length < 2 ^ 32) :
    (∃ m, (clientIds (serve C P GenSessionId k reqs)).map sessionNumber =
      List.range' (k + 1) m) ∧
    ((clientIds (serve C P GenSessionId k reqs)).map sessionNumber).Pairwise (fun a b => a < b) ∧
    (clientIds (serve C P GenSessionId k reqs)).Nodup ∧
    (∀ o ∈ serve C P GenSessionId k reqs, ∀ id, o.session = some (id, Kind.ToPrisoner) →
      id = "") := by
  obtain ⟨m, hm⟩ := clientNumbers_serve C P reqs k hbound
  have hlt : ((clientIds (serve C P GenSessionId k reqs)).map sessionNumber).Pairwise
      (fun a b => a < b) := by
    rw [hm]
    exact List.pairwise_lt_range' (k + 1) m
  refine ⟨⟨m, hm⟩, hlt, ?_, prisoner_identity_serve C P GenSessionId reqs k⟩
  exact List.Nodup.of_map sessionNumber (hlt.imp (fun h => Nat.ne_of_lt h))

/-- C14, amended, at a client, a worker and a second client served from the initial
counter 0: the client identities render 1 and 2. -/
theorem C14_session_identities_witness :
    ((clientIds (serve refCommon refProtocol GenSessionId 0 clientChildClient)).map
      sessionNumber).Pairwise (fun a b => a < b) ∧
    (clientIds (serve refCommon refProtocol GenSessionId 0 clientChildClient)).Nodup ∧
    clientIds (serve refCommon refProtocol GenSessionId 0 clientChildClient) = ["1", "2"] :=
  ⟨(C14_session_identities refCommon refProtocol clientChildClient 0 (by decide)).2.1,
    (C14_session_identities refCommon refProtocol clientChildClient 0 (by decide)).2.2.1,
    by decide⟩

/-- The consumer loop from the call number `k` on: the values handed to
`handleInput` are, in queue order, the values dequeued, except the sentinel, and
they lie before the first sentinel of the queue. -/
theorem runItems_handled (answers : Nat → Option Bool) : ∀ (q : List String) (k : Nat),
    "eof" ∉ (QueueHandler.runItems answers k q).handled.map Prod.fst ∧
    (∀ p ∈ (QueueHandler.runItems answers k q).handled, p.2 = (p.1.length : Int)) ∧
    (((QueueHandler.runItems answers k q).handled.map Prod.fst ++
          "eof" :: (QueueHandler.runItems answers k q).rest = q ∧
        (QueueHandler.runItems answers k q).exit = RunExit.finished) ∨
      (QueueHandler.runItems answers k q).handled.map Prod.fst ++
        (QueueHandler.runItems answers k q).rest = q) ∧
    (QueueHandler.runItems answers k q).handled.map Prod.fst <+:
      q.takeWhile (fun x => x != "eof") := by
  intro q
  induction q with
  | nil =>
    intro k
    simp [QueueHandler.runItems]
  | cons input q ih =>
    intro k
    by_cases he : input = "eof"
    · simp [QueueHandler.runItems, he]
    · obtain ⟨h1, h2, h3, h4⟩ := ih (k + 1)
      cases ha : answers k with
      | none => simp [QueueHandler.runItems, he, ha, Ne.symm he]
      | some b =>
        cases b with
        | false => simp [QueueHandler.runItems, he, ha, Ne.symm he]
        | true =>
          simp only [QueueHandler.runItems, he, ha, if_false, List.map_cons, List.mem_cons,
            not_or, List.cons_append, List.cons.injEq, true_and]
          refine ⟨⟨Ne.symm he, h1⟩, ?_, h3, ?_⟩
          · intro p hp
            rcases hp with rfl | hp
            · rfl
            · exact h2 p hp
          · have hne : (input != "eof") = true := by simpa using he
            rw [List.takeWhile_cons, hne]
            exact (List.cons_prefix_cons).mpr ⟨rfl, h4⟩

/-- While the input handler keeps returning true, the consumer hands over every value
that precedes the first sentinel, and finishes if the queue holds a sentinel. -/
theorem runItems_all_true (answers : Nat → Option Bool) (htrue : ∀ i, answers i = some true) :
    ∀ (q : List String) (k : Nat),
      (QueueHandler.runItems answers k q).handled.map Prod.fst =
        q.takeWhile (fun x => x != "eof") ∧
      ("eof" ∈ q → (QueueHandler.runItems answers k q).exit = RunExit.finished) := by
  intro q
  induction q with
  | nil =>
    intro k
    simp [QueueHandler.runItems]
  | cons input q ih =>
    intro k
    by_cases he : input = "eof"
    · simp [QueueHandler.runItems, he]
    · obtain ⟨h1, h2⟩ := ih (k + 1)
      have hne : (input != "eof") = true := by simpa using he
      simp only [QueueHandler.runItems, he, htrue k, if_false, List.map_cons, List.mem_cons,
        List.takeWhile_cons, hne, if_true, h1, true_and]
      intro h
      rcases h with h | h
      · exact absurd h.symm he
      · exact h2 h

/-- C15: for every queue content, the values the consumer hands to `handleInput`
are, in queue order, exactly the values it dequeues before the sentinel: it never
hands over the sentinel, nor a value behind the first sentinel; when it dequeues the
sentinel it stops, with the rest of the queue left untouched. While the handler
returns true these are all the values before the first sentinel. -/
theorem C15_consumer_order (answers : Nat → Option Bool) (queue : MessageQueue) :
    "eof" ∉ (QueueHandler.run answers queue).handled.map Prod.fst ∧
    (((QueueHandler.run answers queue).handled.map Prod.fst ++
          "eof" :: (QueueHandler.run answers queue).rest = queue.items ∧
        (QueueHandler.run answers queue).exit = RunExit.finished) ∨
      (QueueHandler.run answers queue).handled.map Prod.fst ++
        (QueueHandler.run answers queue).rest = queue.items) ∧
    (QueueHandler.run answers queue).handled.map Prod.fst <+:
      queue.items.takeWhile (fun x => x != "eof") ∧
    ((∀ i, answers i = some true) →
      (QueueHandler.run answers queue).handled.map Prod.fst =
        queue.items.takeWhile (fun x => x != "eof") ∧
      ("eof" ∈ queue.items → (QueueHandler.run answers queue).exit = RunExit.finished)) := by
  obtain ⟨h1, _, h3, h4⟩ := runItems_handled answers queue.items 0
  exact ⟨h1, h3, h4, fun htrue => runItems_all_true answers htrue queue.items 0⟩

/-- C15 at the queue `status`, `tile`, `eof`, `late` with a handler that always
returns true: `status` and `tile` are handed over, in this order, and the consumer
finishes. -/
theorem C15_consumer_order_witness :
    (QueueHandler.run (fun _ => some true) ⟨["status", "tile", "eof", "late"]⟩).handled.map
      Prod.fst = ["status", "tile"] ∧
    (QueueHandler.run (fun _ => some true) ⟨["status", "tile", "eof", "late"]⟩).exit =
      RunExit.finished :=
  ⟨((C15_consumer_order (fun _ => some true) ⟨["status", "tile", "eof", "late"]⟩).2.2.2
      (fun _ => rfl)).1.trans (by decide),
    ((C15_consumer_order (fun _ => some true) ⟨["status", "tile", "eof", "late"]⟩).2.2.2
      (fun _ => rfl)).2 (by decide)⟩

/-- The read loop does not depend on the values the locals `n`, `flags` and
`pollTimeout` hold on entry: they are assigned before they are read. -/
theorem readLoop_independent_of_entry (P : LOOLProtocol) (kind : Kind) :
    ∀ (steps : List Step) (v v2 : LoopVars),
      readLoop P kind v steps = readLoop P kind v2 steps := by
  intro steps
  induction steps with
  | nil =>
    intro v v2
    rfl
  | cons s rest ih =>
    intro v v2
    cases hp : s.poll with
    | raise e => simp [readLoop, loopBody, hp]
    | timeout =>
      simp only [readLoop, loopBody, hp, loopCond]
      rw [ih ⟨v.n, v.flags, false⟩ ⟨v2.n, v2.flags, false⟩]
      cases s.terminationFlag <;> simp
    | readable =>
      have hbody : loopBody P kind v s = loopBody P kind v2 s := by
        simp only [loopBody, hp]
      rw [readLoop, readLoop, hbody]

/-- C16: when a poll times out, the loop polls again if the termination flag is
clear and ends if it is set, whatever values `n` and `flags` hold (the loop condition
does not read them after a timeout, and the whole loop does not depend on the values
they hold on entry); and whenever the termination flag is set at the loop-condition
check, the loop ends, whatever was received in that iteration. -/
theorem C16_timeout_and_termination (P : LOOLProtocol) (kind : Kind) (v : LoopVars)
    (s : Step) (rest : List Step) :
    (s.poll = PollResult.timeout →
      (s.terminationFlag = false →
        readLoop P kind v (s :: rest) =
          ([Effect.poll] ++ (readLoop P kind ⟨v.n, v.flags, false⟩ rest).1,
            (readLoop P kind ⟨v.n, v.flags, false⟩ rest).2) ∧
        ∀ s2 rest2, ∃ tail,
          (readLoop P kind v (s :: s2 :: rest2)).1 = [Effect.poll, Effect.poll] ++ tail) ∧
      (s.terminationFlag = true →
        readLoop P kind v (s :: rest) = ([Effect.poll], LoopExit.left))) ∧
    (∀ (n : Int) (flags : Nat),
      loopCond s.terminationFlag ⟨n, flags, false⟩ = !s.terminationFlag) ∧
    (∀ v2 : LoopVars, readLoop P kind v (s :: rest) = readLoop P kind v2 (s :: rest)) ∧
    (∀ w : LoopVars, (loopBody P kind v s).2 = BodyExit.next w →
      s.terminationFlag = true →
      readLoop P kind v (s :: rest) = ((loopBody P kind v s).1, LoopExit.left)) := by
  have hclear : s.poll = PollResult.timeout → s.terminationFlag = false →
      ∀ rest1, readLoop P kind v (s :: rest1) =
        ([Effect.poll] ++ (readLoop P kind ⟨v.n, v.flags, false⟩ rest1).1,
          (readLoop P kind ⟨v.n, v.flags, false⟩ rest1).2) := by
    intro hp ht rest1
    simp [readLoop, loopBody, hp, loopCond, ht]
  refine ⟨fun hp => ⟨fun ht => ⟨hclear hp ht rest, fun s2 rest2 => ?_⟩, fun ht => ?_⟩,
    fun n flags => ?_, fun v2 => readLoop_independent_of_entry P kind (s :: rest) v v2,
    fun w hw ht => ?_⟩
  · obtain ⟨tail, htail⟩ := readLoop_starts_with_poll P kind ⟨v.n, v.flags, false⟩ s2 rest2
    exact ⟨tail, by rw [hclear hp ht, htail]; rfl⟩
  · simp [readLoop, loopBody, hp, loopCond, ht]
  · cases s.terminationFlag <;> simp [loopCond]
  · have hb : loopBody P kind v s = ((loopBody P kind v s).1, BodyExit.next w) := by
      rw [← hw]
    rw [readLoop, hb]
    simp [loopCond, ht]

/-- C16 at a timeout with the termination flag clear, followed by a CLOSE frame (the
loop polls again), and at a timeout with the termination flag set (the loop ends
although a further frame is available). -/
theorem C16_timeout_and_termination_witness :
    (∃ tail, (readLoop refProtocol Kind.ToClient vars0 (timeoutStep :: closeStep :: [])).1 =
      [Effect.poll, Effect.poll] ++ tail) ∧
    readLoop refProtocol Kind.ToClient vars0 (timeoutTerminationStep :: statusStep :: []) =
      ([Effect.poll], LoopExit.left) :=
  ⟨((C16_timeout_and_termination refProtocol Kind.ToClient vars0 timeoutStep
      (closeStep :: [])).1 rfl).1 rfl |>.2 closeStep [],
    ((C16_timeout_and_termination refProtocol Kind.ToClient vars0 timeoutTerminationStep
      (statusStep :: [])).1 rfl).2 rfl⟩

/-- The reap step never sleeps. -/
theorem reap_no_sleep (children : ChildProcesses) (pid : Int) (status : Nat) (d : Nat) :
    SupEffect.sleep d ∉ (reap children pid status).2 := by
  unfold reap
  split
  · split
    · simp only [List.mem_append, not_or]
      refine ⟨⟨⟨⟨?_, ?_⟩, ?_⟩, ?_⟩, ?_⟩ <;> split <;> simp
    · simp
  · split <;> simp

/-- The pacing counter counts the iterations, whatever `waitpid` answers in them: from
a counter `c`, as long as `c` plus the number of iterations stays at most
`INTERVAL_PROBES`, no iteration sleeps and the counter goes up by one in each. -/
theorem superviseSteps_counts (C : Common) (hprobes : C.INTERVAL_PROBES < 2 ^ 32) :
    ∀ (answers : List (Int × Nat)) (st : SupState),
      st.timeoutCounter + answers.length ≤ C.INTERVAL_PROBES →
      (superviseSteps C st answers).1.timeoutCounter = st.timeoutCounter + answers.length ∧
      ∀ es ∈ (superviseSteps C st answers).2, ∀ d, SupEffect.sleep d ∉ es := by
  intro answers
  induction answers with
  | nil =>
    intro st _
    simp [superviseSteps]
  | cons a rest ih =>
    intro st hlen
    obtain ⟨pid, status⟩ := a
    have hlen1 : st.timeoutCounter + (rest.length + 1) ≤ C.INTERVAL_PROBES := by
      simpa using hlen
    have hne : st.timeoutCounter ≠ C.INTERVAL_PROBES := by omega
    have hmod : (st.timeoutCounter + 1) % 2 ^ 32 = st.timeoutCounter + 1 :=
      Nat.mod_eq_of_lt (by omega)
    have hstep : superviseStep C st pid status =
        (⟨(reap st.children pid status).1, st.timeoutCounter + 1⟩,
          (reap st.children pid status).2) := by
      unfold superviseStep
      rw [if_neg hne, hmod]
    obtain ⟨h1, h2⟩ := ih ⟨(reap st.children pid status).1, st.timeoutCounter + 1⟩
      (by simp only; omega)
    simp only [superviseSteps, hstep, List.length_cons, List.mem_cons]
    refine ⟨by rw [h1]; simp only; omega, ?_⟩
    intro es hes d
    rcases hes with rfl | hes
    · exact reap_no_sleep st.children pid status d
    · exact h2 es hes d

/-- The supervise loop executes the iterations of `superviseSteps` for the answers
up to the point where its condition fails: its state and effects are those of the
first `j` iterations, for some `j`. -/
theorem superviseLoop_iterations (C : Common) (doTest : Bool) :
    ∀ (answers : List (Bool × Int × Nat)) (st : SupState),
      ∃ j, j ≤ answers.length ∧
        (superviseLoop C doTest st answers).1 =
          (superviseSteps C st ((answers.take j).map Prod.snd)).1 ∧
        (superviseLoop C doTest st answers).2.1 =
          (superviseSteps C st ((answers.take j).map Prod.snd)).2.flatten := by
  intro answers
  induction answers with
  | nil =>
    intro st
    exact ⟨0, le_refl 0, rfl, rfl⟩
  | cons a rest ih =>
    intro st
    obtain ⟨terminationFlag, pid, status⟩ := a
    by_cases hc : superviseCond terminationFlag doTest st.children = true
    · obtain ⟨j, hj, h1, h2⟩ := ih (superviseStep C st pid status).1
      refine ⟨j + 1, by simpa using hj, ?_, ?_⟩
      · simp only [superviseLoop, hc, if_true, List.take_succ_cons, List.map_cons,
          superviseSteps]
        exact h1
      · simp only [superviseLoop, hc, if_true, List.take_succ_cons, List.map_cons,
          superviseSteps, List.flatten_cons]
        rw [h2]
    · refine ⟨0, Nat.zero_le _, ?_, ?_⟩ <;> simp [superviseLoop, hc, superviseSteps]

/-- C17, as stated, fails: with `INTERVAL_PROBES` = 10 and `MAINTENANCE_INTERVAL` = 1,
an iteration that reaps the child 100 (normal exit) at the counter 9 does not restart
the count, so the next iteration, the first one without a reap, already sleeps; and
the sleep lasts 2, twice the maintenance interval. -/
theorem C17_counterexample :
    superviseStep refCommon ⟨[(100, 100), (101, 101)], 9⟩ 100 0 =
      (⟨[(101, 101)], 10⟩, [SupEffect.logDied 100]) ∧
    superviseStep refCommon ⟨[(101, 101)], 10⟩ 0 0 =
      (⟨[(101, 101)], 0⟩, [SupEffect.sleep 2]) ∧
    refCommon.MAINTENANCE_INTERVAL = 1 := by
  decide

/-- C17, amended: the maintenance sleep happens exactly in the iterations that find
`timeoutCounter` equal to `INTERVAL_PROBES`, and it lasts `MAINTENANCE_INTERVAL * 2`;
the counter is reset by the sleep only and otherwise goes up by one in every
iteration, whether or not a child is reaped in it. So from the counter 0 the first
`INTERVAL_PROBES` iterations do not sleep and the next one does, whatever `waitpid`
answers in them. -/
theorem C17_maintenance_sleep (C : Common) (st : SupState) (pid : Int) (status : Nat) :
    (superviseStep C st pid status).1.timeoutCounter =
      (if st.timeoutCounter = C.INTERVAL_PROBES then 0 else (st.timeoutCounter + 1) % 2 ^ 32) ∧
    (∀ d, SupEffect.sleep d ∈ (superviseStep C st pid status).2 ↔
      (st.timeoutCounter = C.INTERVAL_PROBES ∧ d = C.MAINTENANCE_INTERVAL * 2)) ∧
    (C.INTERVAL_PROBES < 2 ^ 32 → st.timeoutCounter = 0 →
      ∀ answers : List (Int × Nat), answers.length = C.INTERVAL_PROBES →
        (∀ es ∈ (superviseSteps C st answers).2, ∀ d, SupEffect.sleep d ∉ es) ∧
        (superviseSteps C st answers).1.timeoutCounter = C.INTERVAL_PROBES ∧
        SupEffect.sleep (C.MAINTENANCE_INTERVAL * 2) ∈
          (superviseStep C (superviseSteps C st answers).1 pid status).2 ∧
        (superviseStep C (superviseSteps C st answers).1 pid status).1.timeoutCounter = 0) := by
  have hcounter : ∀ (s : SupState) (p : Int) (x : Nat),
      (superviseStep C s p x).1.timeoutCounter =
        (if s.timeoutCounter = C.INTERVAL_PROBES then 0 else (s.timeoutCounter + 1) % 2 ^ 32) := by
    intro s p x
    unfold superviseStep
    split <;> rfl
  have hsleep : ∀ (s : SupState) (p : Int) (x : Nat) (d : Nat),
      SupEffect.sleep d ∈ (superviseStep C s p x).2 ↔
        (s.timeoutCounter = C.INTERVAL_PROBES ∧ d = C.MAINTENANCE_INTERVAL * 2) := by
    intro s p x d
    unfold superviseStep
    split
    · next h =>
      simp [reap_no_sleep, h]
    · next h =>
      simp [reap_no_sleep, h]
  refine ⟨hcounter st pid status, hsleep st pid status, fun hprobes h0 answers hlen => ?_⟩
  obtain ⟨h1, h2⟩ := superviseSteps_counts C hprobes answers st (by omega)
  have hc : (superviseSteps C st answers).1.timeoutCounter = C.INTERVAL_PROBES := by
    rw [h1]
    omega
  refine ⟨h2, hc, (hsleep _ pid status _).mpr ⟨hc, rfl⟩, ?_⟩
  rw [hcounter, if_pos hc]

/-- C17, amended, with `INTERVAL_PROBES` = 10: ten iterations from the counter 0, the
third of which reaps the child 100, do not sleep, and the eleventh sleeps for 2. -/
theorem C17_maintenance_sleep_witness :
    (∀ es ∈ (superviseSteps refCommon ⟨[(100, 100), (101, 101)], 0⟩
        [(0, 0), (0, 0), (100, 0), (0, 0), (0, 0), (0, 0), (0, 0), (0, 0), (0, 0), (0, 0)]).2,
      ∀ d, SupEffect.sleep d ∉ es) ∧
    SupEffect.sleep 2 ∈
      (superviseStep refCommon (superviseSteps refCommon ⟨[(100, 100), (101, 101)], 0⟩
        [(0, 0), (0, 0), (100, 0), (0, 0), (0, 0), (0, 0), (0, 0), (0, 0), (0, 0),
          (0, 0)]).1 0 0).2 :=
  ⟨((C17_maintenance_sleep refCommon ⟨[(100, 100), (101, 101)], 0⟩ 0 0).2.2 (by decide) rfl
      [(0, 0), (0, 0), (100, 0), (0, 0), (0, 0), (0, 0), (0, 0), (0, 0), (0, 0), (0, 0)]
      (by decide)).1,
    ((C17_maintenance_sleep refCommon ⟨[(100, 100), (101, 101)], 0⟩ 0 0).2.2 (by decide) rfl
      [(0, 0), (0, 0), (100, 0), (0, 0), (0, 0), (0, 0), (0, 0), (0, 0), (0, 0), (0, 0)]
      (by decide)).2.2.1⟩

/-- The queued values of a concatenation. -/
theorem queued_append (a b : List Effect) : queued (a ++ b) = queued a ++ queued b := by
  induction a with
  | nil => rfl
  | cons e rest ih =>
    cases e <;> simp [queued, ih]

/-- Every value the loop body queues is the first line of the frame just received and
differs from the sentinel. -/
theorem loopBody_queued (P : LOOLProtocol) (kind : Kind) (v : LoopVars) (s : Step) :
    ∀ x ∈ queued (loopBody P kind v s).1, x ≠ "eof" ∧
      ∃ n flags buffer, s.recv = RecvResult.frame n flags buffer ∧
        x = P.getFirstLine buffer n := by
  intro x hx
  unfold loopBody at hx
  dsimp only at hx
  split at hx
  · simp [queued] at hx
  · simp [queued] at hx
  · split at hx
    · simp [queued] at hx
    · next n flags buffer hrecv =>
      split at hx
      · simp [queued] at hx
      · split at hx
        · split at hx
          · simp [queued] at hx
          · next heof =>
            split at hx
            · simp only [queued, List.mem_singleton] at hx
              exact ⟨hx ▸ heof, n, flags, buffer, hrecv, hx⟩
            · split at hx
              · split at hx
                · split at hx
                  · simp [queued] at hx
                  · split at hx <;> simp [queued] at hx
                · simp [queued] at hx
              · simp [queued] at hx
        · simp [queued] at hx

/-- Every value the read loop queues is the first line of a received frame and
differs from the sentinel. -/
theorem readLoop_queued (P : LOOLProtocol) (kind : Kind) :
    ∀ (steps : List Step) (v : LoopVars), ∀ x ∈ queued (readLoop P kind v steps).1,
      x ≠ "eof" ∧ ∃ s ∈ steps, ∃ n flags buffer,
        s.recv = RecvResult.frame n flags buffer ∧ x = P.getFirstLine buffer n := by
  intro steps
  induction steps with
  | nil =>
    intro v x hx
    simp [readLoop, queued] at hx
  | cons s rest ih =>
    intro v x hx
    have hbody := loopBody_queued P kind v s
    have hhead : ∀ y ∈ queued (loopBody P kind v s).1, y ≠ "eof" ∧ ∃ s1 ∈ s :: rest,
        ∃ n flags buffer, s1.recv = RecvResult.frame n flags buffer ∧
          y = P.getFirstLine buffer n := by
      intro y hy
      obtain ⟨h1, n, flags, buffer, h2, h3⟩ := hbody y hy
      exact ⟨h1, s, List.mem_cons_self _ _, n, flags, buffer, h2, h3⟩
    unfold readLoop at hx
    split at hx
    · next es e h => rw [h] at hhead; exact hhead x hx
    · next es h => rw [h] at hhead; exact hhead x hx
    · next es h => rw [h] at hhead; exact hhead x hx
    · next es w h =>
      rw [h] at hhead
      split at hx
      · simp only [queued_append, List.mem_append] at hx
        rcases hx with hx | hx
        · exact hhead x hx
        · obtain ⟨h1, s1, hs1, hrest⟩ := ih w x hx
          exact ⟨h1, s1, List.mem_cons_of_mem _ hs1, hrest⟩
      · exact hhead x hx

/-- The `catch` blocks queue nothing. -/
theorem catchEffects_queued (e : Exc) : queued (catchEffects e) = [] := by
  cases e with
  | IOException => rfl
  | WebSocketException code =>
    simp only [catchEffects]
    split <;> rfl

/-- C18: the read loop never puts the sentinel "eof" on the queue: every value it
queues is the first line of a received frame and differs from "eof"; so in the whole
handler the values put on the queue are the values queued by the loop, none of them
"eof", followed by at most the one "eof" of the teardown, which is then the last
item put on the queue. -/
theorem C18_sentinel_only_from_teardown (C : Common) (P : LOOLProtocol)
    (G : Nat → String × Nat) (request : Request) (k : Nat) (env : Env) :
    (∀ (kind : Kind) (v : LoopVars) (steps : List Step),
      ∀ x ∈ queued (readLoop P kind v steps).1,
        x ≠ "eof" ∧ ∃ s ∈ steps, ∃ n flags buffer,
          s.recv = RecvResult.frame n flags buffer ∧ x = P.getFirstLine buffer n) ∧
    (∃ l, "eof" ∉ l ∧
      (queued (handleRequest C P G request k env).trace = l ++ ["eof"] ∨
        queued (handleRequest C P G request k env).trace = l)) := by
  refine ⟨fun kind v steps => readLoop_queued P kind steps v, ?_⟩
  unfold handleRequest
  by_cases hup : request.upgrade = false
  · refine ⟨[], by simp, Or.inr ?_⟩
    by_cases hc : request.convertTo = true <;> simp [hup, hc, queued]
  · have hup1 : request.upgrade = true := by simpa using hup
    simp only [hup1, Bool.true_eq_false, if_false]
    cases env.handshake with
    | some e => exact ⟨[], by simp, Or.inr (catchEffects_queued e)⟩
    | none =>
      simp only
      have hloop := readLoop_queued P (sessionKind C request) env.steps
        ⟨env.n0, env.flags0, true⟩
      refine ⟨queued (readLoop P (sessionKind C request) ⟨env.n0, env.flags0, true⟩
        env.steps).1, fun h => (hloop _ h).1 rfl, ?_⟩
      cases hk : sessionKind C request <;> split <;>
        next h => simp [h, queued_append, queued, catchEffects_queued]

/-- C18 at a ToClient session that receives the line `status` and then a CLOSE
frame: the queue is given `status` and then, last, the sentinel of the teardown. -/
theorem C18_sentinel_only_from_teardown_witness :
    queued (handleRequest refCommon refProtocol GenSessionId clientRequest 0
      statusCloseEnv).trace = ["status", "eof"] ∧
    ∃ l, "eof" ∉ l ∧
      (queued (handleRequest refCommon refProtocol GenSessionId clientRequest 0
          statusCloseEnv).trace = l ++ ["eof"] ∨
        queued (handleRequest refCommon refProtocol GenSessionId clientRequest 0
          statusCloseEnv).trace = l) :=
  ⟨by decide,
    (C18_sentinel_only_from_teardown refCommon refProtocol GenSessionId clientRequest 0
      statusCloseEnv).2⟩

/-- A PONG frame at the primary read: `handleInput` is not called, nothing is queued,
and with the termination flag clear the loop continues with the next iteration,
which starts with a poll. -/
theorem pong_primary_read (P : LOOLProtocol) (kind : Kind) (v : LoopVars) (s : Step)
    (n : Int) (flags : Nat) (buffer : String)
    (hpoll : s.poll = PollResult.readable)
    (hrecv : s.recv = RecvResult.frame n flags buffer)
    (hpong : flags &&& FRAME_OP_BITMASK = FRAME_OP_PONG) :
    dispatched (loopBody P kind v s).1 = [] ∧
    queued (loopBody P kind v s).1 = [] ∧
    (s.terminationFlag = false →
      (∀ rest, readLoop P kind v (s :: rest) =
        ([.poll, .receiveFrame BUFFER_SIZE] ++ (readLoop P kind ⟨1, flags, true⟩ rest).1,
          (readLoop P kind ⟨1, flags, true⟩ rest).2)) ∧
      (∀ s2 rest, ∃ tail, (readLoop P kind v (s :: s2 :: rest)).1 =
        [.poll, .receiveFrame BUFFER_SIZE, .poll] ++ tail)) := by
  have hbody : loopBody P kind v s =
      ([.poll, .receiveFrame BUFFER_SIZE], .next ⟨1, flags, true⟩) := by
    unfold loopBody
    rw [hpoll, hrecv]
    simp only [hpong, if_true]
  have hcond : loopCond false ⟨1, flags, true⟩ = true := by
    have hne : FRAME_OP_PONG ≠ FRAME_OP_CLOSE := by decide
    simp [loopCond, hpong, hne]
  have hloop : s.terminationFlag = false → ∀ rest, readLoop P kind v (s :: rest) =
      ([.poll, .receiveFrame BUFFER_SIZE] ++ (readLoop P kind ⟨1, flags, true⟩ rest).1,
        (readLoop P kind ⟨1, flags, true⟩ rest).2) := by
    intro ht rest
    rw [readLoop, hbody]
    simp only [ht, hcond, if_true]
  refine ⟨by rw [hbody]; rfl, by rw [hbody]; rfl, fun ht => ⟨hloop ht, fun s2 rest => ?_⟩⟩
  obtain ⟨tail, htail⟩ := readLoop_starts_with_poll P kind ⟨1, flags, true⟩ s2 rest
  exact ⟨tail, by rw [hloop ht, htail]; rfl⟩

/-- A frame that answers the second read with n <= 0 or as a CLOSE frame ends the
loop, whatever the termination flag; `handleInput` is not called for it and nothing
is queued. -/
theorem second_read_ends_loop (P : LOOLProtocol) (kind : Kind) (v : LoopVars) (s : Step)
    (n : Int) (flags : Nat) (buffer : String) (size : Int)
    (h : SecondRead P kind s n flags buffer size)
    (n2 : Int) (flags2 : Nat) (payload : String)
    (hrecv2 : s.recv2 = RecvResult.frame n2 flags2 payload)
    (hend : flags2 &&& FRAME_OP_BITMASK = FRAME_OP_CLOSE ∨ n2 ≤ 0) (rest : List Step) :
    readLoop P kind v (s :: rest) =
      ([.poll, .receiveFrame BUFFER_SIZE, .allocate size, .receiveFrame size],
        LoopExit.left) := by
  have hd : ¬ (n2 > 0 ∧ flags2 &&& FRAME_OP_BITMASK ≠ FRAME_OP_CLOSE) := by
    rintro ⟨h1, h2⟩
    rcases hend with hc | hc
    · exact h2 hc
    · omega
  have hbody := loopBody_second_read P kind v s n flags buffer size h n2 flags2 payload hrecv2
  rw [if_neg hd] at hbody
  have hcond : loopCond s.terminationFlag ⟨n2, flags2, true⟩ = false := by
    unfold loopCond
    by_cases ht : s.terminationFlag = true
    · simp [ht]
    · by_cases hn : n2 > 0
      · have hc : flags2 &&& FRAME_OP_BITMASK = FRAME_OP_CLOSE := by
          by_contra hc
          exact hd ⟨hn, hc⟩
        simp [ht, hn, hc]
      · simp [ht, hn]
  rw [readLoop, hbody]
  simp only [hcond, Bool.false_eq_true, if_false]

/-- A frame that answers the second read with n > 0 and is not a CLOSE frame is
passed to `handleInput`, whatever its opcode and its first line; the loop goes on
when `handleInput` returns true and the termination flag is clear. -/
theorem second_read_dispatched (P : LOOLProtocol) (kind : Kind) (v : LoopVars) (s : Step)
    (n : Int) (flags : Nat) (buffer : String) (size : Int)
    (h : SecondRead P kind s n flags buffer size)
    (n2 : Int) (flags2 : Nat) (payload : String)
    (hrecv2 : s.recv2 = RecvResult.frame n2 flags2 payload)
    (hn2 : n2 > 0) (hclose2 : flags2 &&& FRAME_OP_BITMASK ≠ FRAME_OP_CLOSE) :
    (loopBody P kind v s).1 =
      [.poll, .receiveFrame BUFFER_SIZE, .allocate size, .receiveFrame size,
        .handleInput payload n2] ∧
    (s.handled = true → s.terminationFlag = false → ∀ rest,
      readLoop P kind v (s :: rest) =
        ([.poll, .receiveFrame BUFFER_SIZE, .allocate size, .receiveFrame size,
            .handleInput payload n2] ++ (readLoop P kind ⟨n2, flags2, true⟩ rest).1,
          (readLoop P kind ⟨n2, flags2, true⟩ rest).2)) := by
  have hbody := loopBody_second_read P kind v s n flags buffer size h n2 flags2 payload hrecv2
  rw [if_pos ⟨hn2, hclose2⟩] at hbody
  refine ⟨by rw [hbody], fun hh ht rest => ?_⟩
  have hcond : loopCond s.terminationFlag ⟨n2, flags2, true⟩ = true := by
    simp [loopCond, ht, hn2, hclose2]
  rw [readLoop, hbody]
  simp only [hh, if_true, hcond]

/-- C6: the code misses the PONG test at the second read. At the primary read a PONG
frame is neither handed over nor does it end the loop (the loop polls again); but a
PONG frame that answers the second read, after the marker `nextmessage: size=10`, is
passed to `handleInput` when it has a payload, and ends the read loop when its
payload is empty, although the termination flag is clear and a further frame is
available. -/
theorem C6_pong_at_second_read :
    0x8a &&& FRAME_OP_BITMASK = FRAME_OP_PONG ∧
    readLoop refProtocol Kind.ToPrisoner vars0 (pongStep :: closeStep :: []) =
      ([.poll, .receiveFrame BUFFER_SIZE, .poll, .receiveFrame BUFFER_SIZE], LoopExit.left) ∧
    pongAfterMarkerStep.recv2 = RecvResult.frame 4 0x8a "beat" ∧
    dispatched (loopBody refProtocol Kind.ToPrisoner vars0 pongAfterMarkerStep).1 =
      [("beat", 4)] ∧
    emptyPongAfterMarkerStep.recv2 = RecvResult.frame 0 0x8a "" ∧
    emptyPongAfterMarkerStep.terminationFlag = false ∧
    readLoop refProtocol Kind.ToPrisoner vars0 (emptyPongAfterMarkerStep :: statusStep :: []) =
      ([.poll, .receiveFrame BUFFER_SIZE, .allocate 10, .receiveFrame 10], LoopExit.left) := by
  decide

/-- A non-PONG frame at the primary read that is a CLOSE frame, or of length
n <= 0, or whose first line is "eof", ends the loop; `handleInput` is not called for
it and nothing is queued. -/
theorem primary_read_ends_loop (P : LOOLProtocol) (kind : Kind) (v : LoopVars) (s : Step)
    (rest : List Step) (n : Int) (flags : Nat) (buffer : String)
    (hpoll : s.poll = PollResult.readable)
    (hrecv : s.recv = RecvResult.frame n flags buffer)
    (hpong : flags &&& FRAME_OP_BITMASK ≠ FRAME_OP_PONG)
    (hend : flags &&& FRAME_OP_BITMASK = FRAME_OP_CLOSE ∨ n ≤ 0 ∨
      P.getFirstLine buffer n = "eof") :
    readLoop P kind v (s :: rest) = ([.poll, .receiveFrame BUFFER_SIZE], LoopExit.left) := by
  by_cases hdata : n > 0 ∧ flags &&& FRAME_OP_BITMASK ≠ FRAME_OP_CLOSE
  · have heof : P.getFirstLine buffer n = "eof" := by
      rcases hend with h | h | h
      · exact absurd h hdata.2
      · exact absurd hdata.1 (not_lt.mpr h)
      · exact h
    have hbody : loopBody P kind v s = ([.poll, .receiveFrame BUFFER_SIZE], .brk) := by
      unfold loopBody
      rw [hpoll, hrecv]
      simp only [hpong, hdata, heof, if_false, if_true, ne_eq, not_false_eq_true, and_self]
    rw [readLoop, hbody]
  · have hbody : loopBody P kind v s =
        ([.poll, .receiveFrame BUFFER_SIZE], .next ⟨n, flags, true⟩) := by
      unfold loopBody
      rw [hpoll, hrecv]
      simp only [hpong, hdata, if_false]
    have hcond : loopCond s.terminationFlag ⟨n, flags, true⟩ = false := by
      unfold loopCond
      by_cases ht : s.terminationFlag = true
      · simp [ht]
      · by_cases hn : n > 0
        · have hc : flags &&& FRAME_OP_BITMASK = FRAME_OP_CLOSE := by
            by_contra hc
            exact hdata ⟨hn, hc⟩
          simp [ht, hn, hc]
        · simp [ht, hn]
    rw [readLoop, hbody]
    simp only [hcond, Bool.false_eq_true, if_false]

/-- C7, as stated, fails: a text frame whose first line is "eof" and that answers the
second read, after the marker `nextmessage: size=3`, is passed to `handleInput`, and
the loop goes on to the next poll, where a CLOSE frame ends it. -/
theorem C7_counterexample :
    eofAfterMarkerStep.recv2 = RecvResult.frame 3 0x81 "eof" ∧
    0x81 &&& FRAME_OP_BITMASK ≠ FRAME_OP_PONG ∧
    refProtocol.getFirstLine "eof" 3 = "eof" ∧
    dispatched (loopBody refProtocol Kind.ToPrisoner vars0 eofAfterMarkerStep).1 =
      [("eof", 3)] ∧
    readLoop refProtocol Kind.ToPrisoner vars0 (eofAfterMarkerStep :: closeStep :: []) =
      ([.poll, .receiveFrame BUFFER_SIZE, .allocate 3, .receiveFrame 3, .handleInput "eof" 3,
        .poll, .receiveFrame BUFFER_SIZE], LoopExit.left) := by
  decide

/-- C7, amended: for every non-PONG frame received by the primary read, if it is a
CLOSE frame, or the read returned n <= 0, or its first line is "eof", the loop ends
after that frame, `handleInput` is not called for it and nothing is queued. For every
non-PONG frame that answers the second read, after a `nextmessage:` marker, a CLOSE
frame or a read of n <= 0 ends the loop in the same way; its first line is not
tested: with n > 0 and no CLOSE opcode it is passed to `handleInput` as the follow-up
message, also when its first line is "eof", and the loop goes on when `handleInput`
returns true and the termination flag is clear. -/
theorem C7_loop_ends (P : LOOLProtocol) (kind : Kind) (v : LoopVars) (s : Step)
    (rest : List Step) (n : Int) (flags : Nat) (buffer : String)
    (hpoll : s.poll = PollResult.readable)
    (hrecv : s.recv = RecvResult.frame n flags buffer) :
    (flags &&& FRAME_OP_BITMASK ≠ FRAME_OP_PONG →
      (flags &&& FRAME_OP_BITMASK = FRAME_OP_CLOSE ∨ n ≤ 0 ∨ P.getFirstLine buffer n = "eof") →
      readLoop P kind v (s :: rest) = ([.poll, .receiveFrame BUFFER_SIZE], LoopExit.left) ∧
      dispatched (readLoop P kind v (s :: rest)).1 = [] ∧
      queued (readLoop P kind v (s :: rest)).1 = []) ∧
    (∀ (size n2 : Int) (flags2 : Nat) (payload : String),
      SecondRead P kind s n flags buffer size →
      s.recv2 = RecvResult.frame n2 flags2 payload →
      flags2 &&& FRAME_OP_BITMASK ≠ FRAME_OP_PONG →
      ((flags2 &&& FRAME_OP_BITMASK = FRAME_OP_CLOSE ∨ n2 ≤ 0) →
        readLoop P kind v (s :: rest) =
          ([.poll, .receiveFrame BUFFER_SIZE, .allocate size, .receiveFrame size],
            LoopExit.left) ∧
        dispatched (readLoop P kind v (s :: rest)).1 = [] ∧
        queued (readLoop P kind v (s :: rest)).1 = []) ∧
      (n2 > 0 → flags2 &&& FRAME_OP_BITMASK ≠ FRAME_OP_CLOSE →
        dispatched (loopBody P kind v s).1 = [(payload, n2)] ∧
        queued (loopBody P kind v s).1 = [] ∧
        (s.handled = true → s.terminationFlag = false →
          readLoop P kind v (s :: rest) =
            ([.poll, .receiveFrame BUFFER_SIZE, .allocate size, .receiveFrame size,
                .handleInput payload n2] ++ (readLoop P kind ⟨n2, flags2, true⟩ rest).1,
              (readLoop P kind ⟨n2, flags2, true⟩ rest).2)))) := by
  refine ⟨fun hpong hend => ?_, fun size n2 flags2 payload hsecond hrecv2 _ => ⟨fun hend => ?_,
    fun hn2 hclose2 => ?_⟩⟩
  · rw [primary_read_ends_loop P kind v s rest n flags buffer hpoll hrecv hpong hend]
    exact ⟨rfl, rfl, rfl⟩
  · rw [second_read_ends_loop P kind v s n flags buffer size hsecond n2 flags2 payload hrecv2
      hend rest]
    exact ⟨rfl, rfl, rfl⟩
  · have hd := second_read_dispatched P kind v s n flags buffer size hsecond n2 flags2
      payload hrecv2 hn2 hclose2
    refine ⟨by rw [hd.1]; rfl, by rw [hd.1]; rfl, fun hh ht => hd.2 hh ht rest⟩

/-- C7, amended, at a CLOSE frame at the primary read of a ToPrisoner session (the
loop ends although the termination flag is clear and a further frame is available)
and at a CLOSE frame that answers the second read (the loop ends as well). -/
theorem C7_loop_ends_witness :
    readLoop refProtocol Kind.ToPrisoner vars0 (closeStep :: statusStep :: []) =
      ([.poll, .receiveFrame BUFFER_SIZE], LoopExit.left) ∧
    readLoop refProtocol Kind.ToPrisoner vars0 (closeAfterMarkerStep :: statusStep :: []) =
      ([.poll, .receiveFrame BUFFER_SIZE, .allocate 10, .receiveFrame 10], LoopExit.left) :=
  ⟨((C7_loop_ends refProtocol Kind.ToPrisoner vars0 closeStep (statusStep :: []) 2 0x88
      "\x03\xe8" rfl rfl).1 (by decide) (Or.inl (by decide))).1,
    (((C7_loop_ends refProtocol Kind.ToPrisoner vars0 closeAfterMarkerStep (statusStep :: [])
      20 0x81 "nextmessage: size=10" rfl rfl).2 10 2 0x88 "\x03\xe8"
      ⟨rfl, rfl, by decide, by decide, by decide, by decide, by decide, by decide, by decide⟩
      rfl (by decide)).1 (Or.inl (by decide))).1⟩

end LOOLWSD
